import Mathlib

set_option maxRecDepth 10000

unseal Rat.mul Rat.inv Rat.add Rat.sub

/-!
Shallow embedding of the CDR intel analyzer pipeline
(src/utils/cdrProcessor.ts and src/utils/networkAnalyzer.ts).

Strings are modeled as Lean `String`s; character-level processing is done on
`String.data` (`List Char`) with structural recursion so that every definition
evaluates by kernel reduction.  JavaScript number arithmetic is modeled over
`Int` and `Rat` (exact arithmetic; the source only forms small integer counts,
sums and ratios).  JavaScript `Map`s are modeled as insertion-ordered
association lists, matching the iteration-order guarantee of `Map`.
-/

/-- One raw CSV row: the ordered string values of the parsed row object
(`Object.values(row)`); PapaParse delivers string values only.  Positional
field access (`getFieldValue`) indexes this list. -/
abbrev RawRow := List String

/-- JavaScript `a || b` for strings: the empty string is falsy. -/
def jsOrS (a b : String) : String := if a = "" then b else a

/-- JavaScript `a || d` for an optional column index: `undefined` is falsy and
so is the number `0` (relevant because column 0 is a valid index). -/
def jsOrN (a : Option Nat) (d : Nat) : Nat :=
  match a with
  | some n => if n = 0 then d else n
  | none => d

/-- Two-step fallback chain `a || b || d` on optional column indices. -/
def jsOrN2 (a b : Option Nat) (d : Nat) : Nat := jsOrN a (jsOrN b d)

/-- Three-step fallback chain `a || b || c || d` on optional column indices. -/
def jsOrN3 (a b c : Option Nat) (d : Nat) : Nat := jsOrN a (jsOrN b (jsOrN c d))

/-- JavaScript `x || d` for an `Int`-valued expression whose failure mode is
`NaN` (modeled as `none`); both `NaN` and `0` are falsy. -/
def jsOrZ (a : Option Int) (d : Int) : Int :=
  match a with
  | some v => if v = 0 then d else v
  | none => d

/-- Lower-case a character list (ASCII, as in the source data). -/
def lowerL (l : List Char) : List Char := l.map Char.toLower

/-- Upper-case a character list (`String.prototype.toUpperCase`). -/
def upperL (l : List Char) : List Char := l.map Char.toUpper

/-- Whitespace as recognized by JavaScript `parseInt` / `trim` (the ASCII
subset that can occur in CDR exports). -/
def isWsCh (c : Char) : Bool :=
  c == ' ' || c == '\t' || c == '\n' || c == '\r' || c == Char.ofNat 11 || c == Char.ofNat 12

/-- Boolean prefix test on character lists. -/
def isPrefixL : List Char → List Char → Bool
  | [], _ => true
  | _ :: _, [] => false
  | p :: ps, c :: cs => p == c && isPrefixL ps cs

/-- JavaScript `hay.includes(needle)` on exploded strings. -/
def containsL : List Char → List Char → Bool
  | [], needle => isPrefixL needle []
  | c :: t, needle => isPrefixL needle (c :: t) || containsL t needle

/-- `hay.includes(needle)` on `String`s. -/
def containsStr (hay needle : String) : Bool := containsL hay.data needle.data

/-- `hay.toLowerCase().includes(needle)` for a lower-case needle. -/
def lowerContains (hay needle : String) : Bool := containsL (lowerL hay.data) needle.data

/-- JavaScript `<` on strings: lexicographic comparison by code unit. -/
def lexLtL : List Char → List Char → Bool
  | [], [] => false
  | [], _ :: _ => true
  | _ :: _, [] => false
  | a :: as, b :: bs => if a < b then true else if b < a then false else lexLtL as bs

/-- JavaScript string `<`. -/
def ltStr (a b : String) : Bool := lexLtL a.data b.data

/-- JavaScript `String.prototype.trim` (whitespace at both ends). -/
def trimL (l : List Char) : List Char :=
  ((l.dropWhile isWsCh).reverse.dropWhile isWsCh).reverse

/-- `s.split(sep)[0]`: the prefix before the first separator. -/
def beforeColon (s : String) : String := String.mk (s.data.takeWhile (fun c => c != ':'))

/-- `s.split(' ')[0]`. -/
def firstToken (s : String) : String := String.mk (s.data.takeWhile (fun c => c != ' '))

/-- `s.split(' ')[1] || ''`. -/
def secondToken (s : String) : String :=
  match s.data.dropWhile (fun c => c != ' ') with
  | [] => ""
  | _ :: t => String.mk (t.takeWhile (fun c => c != ' '))

/-- Decimal value of a digit run. -/
def digitsVal (l : List Char) : Nat := l.foldl (fun a c => a * 10 + (c.toNat - 48)) 0

/-- Hexadecimal digit predicate (for the `0x` branch of `parseInt`). -/
def isHexDigitCh (c : Char) : Bool :=
  c.isDigit || (decide ('a' ≤ c.toLower) && decide (c.toLower ≤ 'f'))

/-- Value of one hexadecimal digit. -/
def hexDigitVal (c : Char) : Nat :=
  if c.isDigit then c.toNat - 48 else (c.toLower.toNat - 97) + 10

/-- JavaScript `parseInt(s)` with no radix argument: skip leading whitespace,
an optional sign, an optional `0x`/`0X` prefix (hexadecimal), then the maximal
digit run; `none` models `NaN`. -/
def jsParseInt (s : String) : Option Int :=
  let l := s.data.dropWhile isWsCh
  let sign : Int := match l with
    | c :: _ => if c == '-' then -1 else 1
    | [] => 1
  let l1 := match l with
    | c :: t => if c == '-' || c == '+' then t else c :: t
    | [] => []
  let hex : Bool := match l1 with
    | c0 :: c1 :: _ => c0 == '0' && (c1 == 'x' || c1 == 'X')
    | _ => false
  if hex then
    let ds := (l1.drop 2).takeWhile isHexDigitCh
    if ds.isEmpty then none
    else some (sign * (ds.foldl (fun a c => 16 * a + (hexDigitVal c : Int)) 0))
  else
    let ds := l1.takeWhile Char.isDigit
    if ds.isEmpty then none
    else some (sign * (digitsVal ds : Int))

/-- cdrProcessor.ts lines 186-190: permissive duration parsing; placeholders
and non-numeric text coerce to 0. -/
def parseCallDuration (duration : String) : Int :=
  if duration = "" then 0
  else if duration = "-" then 0
  else match jsParseInt duration with
    | none => 0
    | some n => n

/-- cdrProcessor.ts lines 192-197: night is hour `>= 18` or `< 6`; an
unparseable hour (`NaN`) compares false on both sides. -/
def isNightTime (time : String) : Bool :=
  if time = "" then false
  else match jsParseInt (beforeColon time) with
    | none => false
    | some hour => decide (18 ≤ hour) || decide (hour < 6)

/-- cdrProcessor.ts lines 212-226: defensive positional access; an absent
index yields the empty string (the PapaParse `__parsed_extra` branch is
subsumed by positional access on the ordered value list). -/
def getFieldValue (row : RawRow) (i : Nat) : String := row.getD i ""

/-- The ASCII apostrophe used as a quote in several carrier header formats. -/
def quoteChar : Char := Char.ofNat 39

/-- Case-insensitive literal match at the head of the text (regex `/i`). -/
def matchLitCI : List Char → List Char → Option (List Char)
  | [], s => some s
  | _ :: _, [] => none
  | p :: ps, c :: cs => if p.toLower == c.toLower then matchLitCI ps cs else none

/-- Regex `\s*`. -/
def skipWsL (l : List Char) : List Char := l.dropWhile isWsCh

/-- Regex `(\d+)`: the maximal nonempty run of decimal digits. -/
def takeDigits1 (l : List Char) : Option (List Char × List Char) :=
  let ds := l.takeWhile Char.isDigit
  if ds.isEmpty then none else some (ds, l.drop ds.length)

/-- Expect one exact character. -/
def expectCh (c : Char) : List Char → Option (List Char)
  | [] => none
  | x :: t => if x == c then some t else none

/-- Regex search: try a matcher at every start position, first hit wins. -/
def searchL (f : List Char → Option (List Char)) : List Char → Option (List Char)
  | [] => f []
  | c :: rest =>
    match f (c :: rest) with
    | some r => some r
    | none => searchL f rest

/-- Tail `(\d+)'` after an opening quote: greedy digits, then a closing quote
(equivalent to the regex engine since a quote is not a digit). -/
def digitsThenQuote (l : List Char) : Option (List Char) :=
  match takeDigits1 l with
  | none => none
  | some (ds, rest) =>
    match expectCh quoteChar rest with
    | none => none
    | some _ => some ds

/-- Pattern shape `LIT'(\d+)'` anchored at the current position. -/
def patQuotedDigits (lit : List Char) (s : List Char) : Option (List Char) :=
  match matchLitCI (lit ++ [quoteChar]) s with
  | none => none
  | some rest => digitsThenQuote rest

/-- Pattern shape `LIT[^']*'(\d+)'`: `[^']*` necessarily stops at the first
quote after the literal. -/
def patSkipToQuoteDigits (lit : List Char) (s : List Char) : Option (List Char) :=
  match matchLitCI lit s with
  | none => none
  | some rest =>
    match expectCh quoteChar (rest.dropWhile (fun c => c != quoteChar)) with
    | none => none
    | some afterQ => digitsThenQuote afterQ

/-- Pattern shape `LIT\s*:\s*(\d+)`. -/
def patColonDigits (lit : List Char) (s : List Char) : Option (List Char) :=
  match matchLitCI lit s with
  | none => none
  | some rest =>
    match expectCh ':' (skipWsL rest) with
    | none => none
    | some r2 =>
      match takeDigits1 (skipWsL r2) with
      | none => none
      | some (ds, _) => some ds

/-- Pattern shape `LIT[^:]*:\s*(\d+)`. -/
def patSkipColonWsDigits (lit : List Char) (s : List Char) : Option (List Char) :=
  match matchLitCI lit s with
  | none => none
  | some rest =>
    match expectCh ':' (rest.dropWhile (fun c => c != ':')) with
    | none => none
    | some r2 =>
      match takeDigits1 (skipWsL r2) with
      | none => none
      | some (ds, _) => some ds

/-- Pattern shape `LIT\s*:\s*-\s*(\d+)`. -/
def patColonDashDigits (lit : List Char) (s : List Char) : Option (List Char) :=
  match matchLitCI lit s with
  | none => none
  | some rest =>
    match expectCh ':' (skipWsL rest) with
    | none => none
    | some r2 =>
      match expectCh '-' (skipWsL r2) with
      | none => none
      | some r3 =>
        match takeDigits1 (skipWsL r3) with
        | none => none
        | some (ds, _) => some ds

/-- Pattern shape `LIT[^:]*:[^-]*-\s*(\d+)`. -/
def patSkipColonSkipDashDigits (lit : List Char) (s : List Char) : Option (List Char) :=
  match matchLitCI lit s with
  | none => none
  | some rest =>
    match expectCh ':' (rest.dropWhile (fun c => c != ':')) with
    | none => none
    | some r2 =>
      match expectCh '-' (r2.dropWhile (fun c => c != '-')) with
      | none => none
      | some r3 =>
        match takeDigits1 (skipWsL r3) with
        | none => none
        | some (ds, _) => some ds

/-- Line terminators that the regex `.` never matches. -/
def isLineTermCh (c : Char) : Bool :=
  c == '\n' || c == '\r' || c == Char.ofNat 0x2028 || c == Char.ofNat 0x2029

/-- Lazy tail `.*?(\d{15})`: the first position with 15 consecutive digits,
not crossing a line terminator. -/
def find15Digits : List Char → Option (List Char)
  | [] => none
  | c :: rest =>
    let run := (c :: rest).takeWhile Char.isDigit
    if 15 ≤ run.length then some (run.take 15)
    else if isLineTermCh c then none
    else find15Digits rest

/-- Lazy tail `.*?'(\d+)'`: at each quote try `(\d+)'`, else keep scanning. -/
def lazyQuoteDigits : List Char → Option (List Char)
  | [] => none
  | c :: rest =>
    if c == quoteChar then
      match digitsThenQuote rest with
      | some ds => some ds
      | none => lazyQuoteDigits rest
    else if isLineTermCh c then none
    else lazyQuoteDigits rest

/-- Fixed-width tail `(\d{15})'` after an opening quote. -/
def digits15ThenQuote (l : List Char) : Option (List Char) :=
  let ds := l.take 15
  if ds.length == 15 && ds.all Char.isDigit then
    match expectCh quoteChar (l.drop 15) with
    | none => none
    | some _ => some ds
  else none

/-- Lazy tail `.*?'(\d{15})'`. -/
def lazyQuote15 : List Char → Option (List Char)
  | [] => none
  | c :: rest =>
    if c == quoteChar then
      match digits15ThenQuote rest with
      | some ds => some ds
      | none => lazyQuote15 rest
    else if isLineTermCh c then none
    else lazyQuote15 rest

/-- `/Call Details of Mobile No '(\d+)'/i` (AIRTEL msisdnPattern). -/
def airtelMsisdnPat (s : List Char) : Option (List Char) :=
  searchL (patQuotedDigits ("Call Details of Mobile No ").data) s

/-- `/Call Details of IMEI No '(\d+)'/i` (AIRTEL imeiPattern). -/
def airtelImeiPat (s : List Char) : Option (List Char) :=
  searchL (patQuotedDigits ("Call Details of IMEI No ").data) s

/-- `/Search Value\s*:\s*(\d+)/i` (BSNL msisdnPattern). -/
def bsnlMsisdnPat (s : List Char) : Option (List Char) :=
  searchL (patColonDigits ("Search Value").data) s

/-- `/IMEI.*?(\d{15})/i` (BSNL imeiPattern). -/
def bsnlImeiPat (s : List Char) : Option (List Char) :=
  searchL (fun l =>
    match matchLitCI ("IMEI").data l with
    | none => none
    | some rest => find15Digits rest) s

/-- `/Input Value.*?'(\d+)'/i` (JIO msisdnPattern). -/
def jioMsisdnPat (s : List Char) : Option (List Char) :=
  searchL (fun l =>
    match matchLitCI ("Input Value").data l with
    | none => none
    | some rest => lazyQuoteDigits rest) s

/-- `/Input Value.*?'(\d{15})'/i` (JIO imeiPattern). -/
def jioImeiPat (s : List Char) : Option (List Char) :=
  searchL (fun l =>
    match matchLitCI ("Input Value").data l with
    | none => none
    | some rest => lazyQuote15 rest) s

/-- `/MSISDN\s*:\s*-\s*(\d+)/i` (VODAFONE msisdnPattern). -/
def vodafoneMsisdnPat (s : List Char) : Option (List Char) :=
  searchL (patColonDashDigits ("MSISDN").data) s

/-- `/IMEI\s*:\s*-\s*(\d+)/i` (VODAFONE imeiPattern). -/
def vodafoneImeiPat (s : List Char) : Option (List Char) :=
  searchL (patColonDashDigits ("IMEI").data) s

/-- cdrProcessor.ts lines 147-148: the AIRTEL fallback pair
`/Mobile No[^']*'(\d+)'/i || /IMEI No[^']*'(\d+)'/i`. -/
def airtelFallbackPat (s : List Char) : Option (List Char) :=
  match searchL (patSkipToQuoteDigits ("Mobile No").data) s with
  | some v => some v
  | none => searchL (patSkipToQuoteDigits ("IMEI No").data) s

/-- cdrProcessor.ts line 154: `/Search Value[^:]*:\s*(\d+)/i`. -/
def bsnlFallbackPat (s : List Char) : Option (List Char) :=
  searchL (patSkipColonWsDigits ("Search Value").data) s

/-- cdrProcessor.ts line 160: `/Input Value[^']*'(\d+)'/i`. -/
def jioFallbackPat (s : List Char) : Option (List Char) :=
  searchL (patSkipToQuoteDigits ("Input Value").data) s

/-- cdrProcessor.ts lines 166-167: the VODAFONE fallback pair
`/MSISDN[^:]*:[^-]*-\s*(\d+)/i || /IMEI[^:]*:[^-]*-\s*(\d+)/i`. -/
def vodafoneFallbackPat (s : List Char) : Option (List Char) :=
  match searchL (patSkipColonSkipDashDigits ("MSISDN").data) s with
  | some v => some v
  | none => searchL (patSkipColonSkipDashDigits ("IMEI").data) s

/-- The carrier tag (keys of `PROVIDER_CONFIGS`). -/
inductive Provider
  | AIRTEL
  | BSNL
  | JIO
  | VODAFONE
deriving DecidableEq

/-- One entry of `PROVIDER_CONFIGS` (cdrProcessor.ts lines 45-70).  For the
carriers with a scalar `dataStartRow` both start fields hold that scalar;
JIO distinguishes the mobile and the IMEI export variant. -/
structure ProviderConfig where
  identifiers : List String
  dataStartRowMobile : Nat
  dataStartRowImei : Nat
  msisdnPat : List Char → Option (List Char)
  imeiPat : List Char → Option (List Char)

def airtelConfig : ProviderConfig :=
  { identifiers := ["BHARTI AIRTEL LIMITED", "Call Details of Mobile No", "Call Details of IMEI No"]
  , dataStartRowMobile := 7, dataStartRowImei := 7
  , msisdnPat := airtelMsisdnPat, imeiPat := airtelImeiPat }

def bsnlConfig : ProviderConfig :=
  { identifiers := ["Search Criteria : MSISDN", "Search Value :"]
  , dataStartRowMobile := 7, dataStartRowImei := 7
  , msisdnPat := bsnlMsisdnPat, imeiPat := bsnlImeiPat }

def jioConfig : ProviderConfig :=
  { identifiers := ["Ticket Number :", "Input Value (MSISDN/B PARTY/IMEI/IMSI/CELL ID)"]
  , dataStartRowMobile := 19, dataStartRowImei := 11
  , msisdnPat := jioMsisdnPat, imeiPat := jioImeiPat }

def vodafoneConfig : ProviderConfig :=
  { identifiers := ["Vodafone Idea Call Data Records", "MSISDN : -", "IMEI : -"]
  , dataStartRowMobile := 12, dataStartRowImei := 12
  , msisdnPat := vodafoneMsisdnPat, imeiPat := vodafoneImeiPat }

/-- `Object.entries(PROVIDER_CONFIGS)` in declaration order. -/
def providerConfigList : List (Provider × ProviderConfig) :=
  [(Provider.AIRTEL, airtelConfig), (Provider.BSNL, bsnlConfig),
   (Provider.JIO, jioConfig), (Provider.VODAFONE, vodafoneConfig)]

/-- `Object.values(row).join(' ')` (and `[...].join(' ')` on a string list). -/
def joinRow : List String → String
  | [] => ""
  | [v] => v
  | v :: rest => v ++ " " ++ joinRow rest

/-- cdrProcessor.ts lines 76-84: the uppercased search blob over the first
20 rows. -/
def searchBlob (data : List RawRow) : List Char :=
  upperL (joinRow ((data.take 20).map joinRow)).data

/-- `config.identifiers.some(id => searchText.includes(id.toUpperCase()))`. -/
def anyIdentifierHit (cfg : ProviderConfig) (blob : List Char) : Bool :=
  cfg.identifiers.any (fun id => containsL blob (upperL id.data))

/-- cdrProcessor.ts lines 72-105: first profile whose signature appears in
the blob, in declaration order; VODAFONE is the default. -/
def detectProvider (data : List RawRow) : Provider × ProviderConfig :=
  match providerConfigList.find? (fun pc => anyIdentifierHit pc.2 (searchBlob data)) with
  | some pc => pc
  | none => (Provider.VODAFONE, vodafoneConfig)

/-- The per-row pattern cascade of `extractMSISDN` (cdrProcessor.ts lines
127-172): IMEI pattern, then MSISDN pattern, then the provider-specific
fallback patterns. -/
def rowPatterns (cfg : ProviderConfig) (provider : Provider) (text : List Char) :
    Option (List Char) :=
  match cfg.imeiPat text with
  | some v => some v
  | none =>
    match cfg.msisdnPat text with
    | some v => some v
    | none =>
      match provider with
      | Provider.AIRTEL => airtelFallbackPat text
      | Provider.BSNL => bsnlFallbackPat text
      | Provider.JIO => jioFallbackPat text
      | Provider.VODAFONE => vodafoneFallbackPat text

/-- The row scan of `extractMSISDN`: blank rows are skipped, the first
pattern hit is returned, otherwise the sentinel `"Unknown"`. -/
def extractGo (cfg : ProviderConfig) (provider : Provider) : List RawRow → String
  | [] => "Unknown"
  | row :: rest =>
    let text := (joinRow row).data
    if trimL text = [] then extractGo cfg provider rest
    else
      match rowPatterns cfg provider text with
      | some v => String.mk v
      | none => extractGo cfg provider rest

/-- cdrProcessor.ts lines 107-177: scan the first 25 rows for the account
identifier; never aborts. -/
def extractMSISDN (data : List RawRow) (cfg : ProviderConfig) (provider : Provider) : String :=
  extractGo cfg provider (data.take 25)

/-- One entry of `fieldMappings` (cdrProcessor.ts lines 229-253); only the
keys that `mapProviderFields` reads are recorded, absent keys are `none`
(the unread keys of the source object cannot influence any output). -/
structure FieldIdx where
  targetNo : Option Nat := none
  callType : Option Nat := none
  bParty : Option Nat := none
  date : Option Nat := none
  callDate : Option Nat := none
  time : Option Nat := none
  callTime : Option Nat := none
  duration : Option Nat := none
  firstCellId : Option Nat := none
  firstCgi : Option Nat := none
  firstCellGlobal : Option Nat := none
  lastCellId : Option Nat := none
  lastCgi : Option Nat := none
  lastCellGlobal : Option Nat := none
  imei : Option Nat := none
  imsi : Option Nat := none
  roaming : Option Nat := none
  roamingCircle : Option Nat := none
  lrn : Option Nat := none
  lrnBParty : Option Nat := none
  callForward : Option Nat := none
  callForwarding : Option Nat := none
  serviceType : Option Nat := none
  firstBts : Option Nat := none
  firstCellDesc : Option Nat := none
  lastBts : Option Nat := none
  lastCellDesc : Option Nat := none

def airtelFields : FieldIdx :=
  { targetNo := some 0, callType := some 1, bParty := some 3, lrn := some 4
  , date := some 6, time := some 7, duration := some 8, firstCgi := some 10
  , lastCgi := some 12, serviceType := some 14, imei := some 15, imsi := some 16
  , callForward := some 17, roaming := some 18 }

def bsnlFields : FieldIdx :=
  { callType := some 2, lrnBParty := some 5, callDate := some 7, callTime := some 8
  , duration := some 9, firstCellDesc := some 10, firstCellId := some 11
  , lastCellDesc := some 12, lastCellId := some 13, serviceType := some 15
  , imei := some 16, imsi := some 17 }

def jioFields : FieldIdx :=
  { callForwarding := some 2, callDate := some 4, callTime := some 5
  , duration := some 7, firstCellId := some 8, lastCellId := some 9
  , callType := some 10, imei := some 12, imsi := some 13, roamingCircle := some 14 }

def vodafoneFields : FieldIdx :=
  { targetNo := some 0, callType := some 1, bParty := some 3, lrnBParty := some 4
  , callDate := some 6, callTime := some 7, duration := some 8, firstBts := some 9
  , firstCellGlobal := some 10, lastBts := some 11, lastCellGlobal := some 12
  , serviceType := some 14, imei := some 15, imsi := some 16, callForward := some 17
  , roaming := some 18 }

def fieldIdxFor : Provider → FieldIdx
  | Provider.AIRTEL => airtelFields
  | Provider.BSNL => bsnlFields
  | Provider.JIO => jioFields
  | Provider.VODAFONE => vodafoneFields

/-- The record produced by `mapProviderFields`. -/
structure MappedFields where
  targetNo : String
  callType : String
  bParty : String
  date : String
  time : String
  duration : String
  firstCellId : String
  lastCellId : String
  imei : String
  imsi : String
  roaming : String
  lrn : String
  callForward : String
  serviceType : String
  firstBts : String
  lastBts : String
deriving DecidableEq

/-- cdrProcessor.ts lines 228-275: positional extraction through the
provider's field map, with the exact JavaScript `||` fallback chains (index
`0` is falsy, hence `jsOrN`). -/
def mapProviderFields (row : RawRow) (provider : Provider) : MappedFields :=
  let m := fieldIdxFor provider
  { targetNo := getFieldValue row (jsOrN m.targetNo 0)
  , callType := getFieldValue row (jsOrN m.callType 1)
  , bParty := getFieldValue row (jsOrN m.bParty 3)
  , date := getFieldValue row (jsOrN2 m.callDate m.date 6)
  , time := getFieldValue row (jsOrN2 m.callTime m.time 7)
  , duration := getFieldValue row (jsOrN m.duration 8)
  , firstCellId := getFieldValue row (jsOrN3 m.firstCellId m.firstCgi m.firstCellGlobal 10)
  , lastCellId := getFieldValue row (jsOrN3 m.lastCellId m.lastCgi m.lastCellGlobal 12)
  , imei := getFieldValue row (jsOrN m.imei 15)
  , imsi := getFieldValue row (jsOrN m.imsi 16)
  , roaming := getFieldValue row (jsOrN2 m.roaming m.roamingCircle 18)
  , lrn := getFieldValue row (jsOrN2 m.lrn m.lrnBParty 4)
  , callForward := getFieldValue row (jsOrN2 m.callForward m.callForwarding 17)
  , serviceType := getFieldValue row (jsOrN m.serviceType 14)
  , firstBts := getFieldValue row (jsOrN2 m.firstBts m.firstCellDesc 9)
  , lastBts := getFieldValue row (jsOrN2 m.lastBts m.lastCellDesc 11) }

/-- One row of Sheet 1 (MAPPING, cdrProcessor.ts lines 341-381); the
constant-empty presentation columns are not recorded. -/
structure MappingRow where
  cdrNo : String
  bParty : String
  date : String
  time : String
  duration : Int
  callType : String
  firstCellId : String
  firstCellAddress : String
  lastCellId : String
  lastCellAddress : String
  imei : String
  imsi : String
  roaming : String
  serviceType : String
  numTmp : String
  lrn : String
  callForward : String
  timeHH : String
deriving DecidableEq

/-- cdrProcessor.ts lines 341-381 (Sheet 1: MAPPING). -/
def generateMapping (data : List RawRow) (provider : Provider) (msisdn : String) :
    List MappingRow :=
  data.map (fun row =>
    let m := mapProviderFields row provider
    { cdrNo := msisdn
    , bParty := m.bParty
    , date := m.date
    , time := m.time
    , duration := parseCallDuration m.duration
    , callType := m.callType
    , firstCellId := m.firstCellId
    , firstCellAddress := jsOrS m.firstBts ""
    , lastCellId := m.lastCellId
    , lastCellAddress := jsOrS m.lastBts ""
    , imei := m.imei
    , imsi := m.imsi
    , roaming := m.roaming
    , serviceType := m.serviceType
    , numTmp := m.targetNo
    , lrn := m.lrn
    , callForward := m.callForward
    , timeHH := if m.time = "" then "" else beforeColon m.time })

/-- The per-contact accumulator of `generateSummary` (cdrProcessor.ts
lines 391-405); JavaScript `Set`s become insertion-ordered dedup lists. -/
structure SummaryAcc where
  totalCalls : Nat
  outCalls : Nat
  inCalls : Nat
  outSms : Nat
  inSms : Nat
  totalDuration : Int
  dates : List String
  cellIds : List String
  imeis : List String
  imsis : List String
  firstCall : Option String
  lastCall : Option String
deriving DecidableEq

/-- `Set.prototype.add` on an insertion-ordered dedup list. -/
def addSet (l : List String) (x : String) : List String :=
  if l.contains x then l else l ++ [x]

def summaryInit : SummaryAcc :=
  { totalCalls := 0, outCalls := 0, inCalls := 0, outSms := 0, inSms := 0
  , totalDuration := 0, dates := [], cellIds := [], imeis := [], imsis := []
  , firstCall := none, lastCall := none }

/-- The per-record update of `generateSummary` (cdrProcessor.ts lines
408-437). -/
def updSummaryAcc (m : MappedFields) (a : SummaryAcc) : SummaryAcc :=
  let isOut := lowerContains m.callType "out"
  let isIn := lowerContains m.callType "in"
  let isSms := lowerContains m.serviceType "sms"
  let dt := m.date ++ " " ++ m.time
  { totalCalls := a.totalCalls + 1
  , outCalls := a.outCalls + (if isOut then 1 else 0)
  , inCalls := a.inCalls + (if !isOut && isIn then 1 else 0)
  , outSms := a.outSms + (if isSms && isOut then 1 else 0)
  , inSms := a.inSms + (if isSms && !isOut && isIn then 1 else 0)
  , totalDuration := a.totalDuration + parseCallDuration m.duration
  , dates := addSet a.dates m.date
  , cellIds := addSet a.cellIds m.firstCellId
  , imeis := addSet a.imeis m.imei
  , imsis := addSet a.imsis m.imsi
  , firstCall := match a.firstCall with
      | none => some dt
      | some f => if ltStr dt f then some dt else some f
  , lastCall := match a.lastCall with
      | none => some dt
      | some f => if ltStr f dt then some dt else some f }

/-- Fold one raw row into the contact accumulator map. -/
def bumpSummary (contacts : List (String × SummaryAcc)) (m : MappedFields) :
    List (String × SummaryAcc) :=
  if (contacts.find? (fun p => p.1 == m.bParty)).isSome then
    contacts.map (fun p => if p.1 == m.bParty then (p.1, updSummaryAcc m p.2) else p)
  else
    contacts ++ [(m.bParty, updSummaryAcc m summaryInit)]

/-- One row of Sheet 2 (SUMMARY, cdrProcessor.ts lines 440-462); the
constant-empty presentation columns are not recorded. -/
structure SummaryRow where
  cdrNo : String
  bParty : String
  provider : Provider
  totalCalls : Nat
  outCalls : Nat
  inCalls : Nat
  outSms : Nat
  inSms : Nat
  otherCalls : Int
  totalDuration : Int
  totalDays : Nat
  totalCellIds : Nat
  totalImei : Nat
  totalImsi : Nat
  firstCallDate : String
  firstCallTime : String
  lastCallDate : String
  lastCallTime : String
deriving DecidableEq

def summaryRowOf (msisdn : String) (provider : Provider) (p : String × SummaryAcc) :
    SummaryRow :=
  let c := p.2
  { cdrNo := msisdn
  , bParty := p.1
  , provider := provider
  , totalCalls := c.totalCalls
  , outCalls := c.outCalls
  , inCalls := c.inCalls
  , outSms := c.outSms
  , inSms := c.inSms
  , otherCalls := (c.totalCalls : Int) - (c.outCalls : Int) - (c.inCalls : Int)
  , totalDuration := c.totalDuration
  , totalDays := c.dates.length
  , totalCellIds := c.cellIds.length
  , totalImei := c.imeis.length
  , totalImsi := c.imsis.length
  , firstCallDate := match c.firstCall with | none => "" | some f => firstToken f
  , firstCallTime := match c.firstCall with | none => "" | some f => secondToken f
  , lastCallDate := match c.lastCall with | none => "" | some f => firstToken f
  , lastCallTime := match c.lastCall with | none => "" | some f => secondToken f }

/-- cdrProcessor.ts lines 384-463 (Sheet 2: SUMMARY).  JavaScript object key
enumeration may move integer-like keys ahead of insertion order; rows here
keep first-insertion order, on which no analyzed property depends. -/
def generateSummary (data : List RawRow) (provider : Provider) (msisdn : String) :
    List SummaryRow :=
  (data.foldl (fun acc row => bumpSummary acc (mapProviderFields row provider)) []).map
    (summaryRowOf msisdn provider)

/-- The slice of `ProcessedCDRData` consumed by the network analyzer and the
analyzed report properties (`mapping`, `summary`); the other fourteen sheet
generators are total presentational folds of the same `validData` and are
not modeled. -/
structure ProcessedCDR where
  fileName : String
  msisdn : String
  provider : Provider
  mapping : List MappingRow
  summary : List SummaryRow
deriving DecidableEq

/-- cdrProcessor.ts lines 179-184. -/
def getDataStartIndex (provider : Provider) (cfg : ProviderConfig) (isImei : Bool) : Nat :=
  if provider = Provider.JIO then
    (if isImei then cfg.dataStartRowImei else cfg.dataStartRowMobile)
  else cfg.dataStartRowMobile

/-- The row validity filter of `processCDRData` (cdrProcessor.ts lines
296-309). -/
def hasDataRow (row : RawRow) : Bool :=
  row.any (fun v =>
    v != "" && trimL v.data != [] && !containsStr v "Target" &&
      !containsStr v "PARTY" && !containsStr v "Call Type")

/-- cdrProcessor.ts lines 277-338. -/
def processCDRData (rawData : List RawRow) (fileName : String) : ProcessedCDR :=
  let pc := detectProvider rawData
  let provider := pc.1
  let config := pc.2
  let msisdn := extractMSISDN rawData config provider
  let isImeiData := lowerContains fileName "imei" ||
    rawData.any (fun row => lowerContains (joinRow row) "imei")
  let dataStartIndex := getDataStartIndex provider config isImeiData
  let validData := (rawData.drop dataStartIndex).filter hasDataRow
  { fileName := fileName
  , msisdn := msisdn
  , provider := provider
  , mapping := generateMapping validData provider msisdn
  , summary := generateSummary validData provider msisdn }

/-- JavaScript `Map.get` on an insertion-ordered association list. -/
def lookupM {α : Type} (m : List (String × α)) (k : String) : Option α :=
  (m.find? (fun p => p.1 == k)).map Prod.snd

/-- JavaScript `Map.has`. -/
def hasKeyM {α : Type} (m : List (String × α)) (k : String) : Bool :=
  (m.find? (fun p => p.1 == k)).isSome

/-- In-place mutation of the object stored at a key (position kept). -/
def updateM {α : Type} (m : List (String × α)) (k : String) (f : α → α) :
    List (String × α) :=
  m.map (fun p => if p.1 == k then (p.1, f p.2) else p)

/-- `Map.set`: overwrite in place if present, else append. -/
def setM {α : Type} (m : List (String × α)) (k : String) (v : α) : List (String × α) :=
  if hasKeyM m k then m.map (fun p => if p.1 == k then (p.1, v) else p)
  else m ++ [(k, v)]

/-- Node classification tag (networkAnalyzer.ts line 7). -/
inductive NodeType
  | kingpin
  | middleman
  | peddler
  | external
deriving DecidableEq

/-- Dominant time-of-day tag of an edge (networkAnalyzer.ts line 49). -/
inductive DayTime
  | night
  | day
  | mixed
deriving DecidableEq

/-- networkAnalyzer.ts lines 12-17. -/
structure Centrality where
  degree : Rat
  betweenness : Rat
  closeness : Rat
  eigenvector : Rat
deriving DecidableEq

/-- networkAnalyzer.ts lines 23-33. -/
structure NodeMeta where
  incomingCalls : Nat
  outgoingCalls : Nat
  avgCallDuration : Rat
  nightCalls : Nat
  provider : Option Provider
  imei : List String
  imsi : List String
  cellIds : List String
  influenceScore : Option Rat
deriving DecidableEq

/-- networkAnalyzer.ts lines 4-34 (the randomized demo `location` of the
source is driven by `Math.random` and is not modeled; nothing reads it). -/
structure NetworkNode where
  id : String
  label : String
  type : NodeType
  role : String
  callCount : Nat
  totalDuration : Int
  uniqueContacts : Nat
  centrality : Centrality
  metadata : NodeMeta
deriving DecidableEq

/-- networkAnalyzer.ts lines 45-50. -/
structure EdgeMeta where
  firstCall : String
  lastCall : String
  nightCalls : Nat
  dayTime : DayTime
deriving DecidableEq

/-- networkAnalyzer.ts lines 36-51. -/
structure NetworkEdge where
  id : String
  source : String
  target : String
  weight : Nat
  callCount : Nat
  totalDuration : Int
  avgDuration : Rat
  bidirectional : Bool
  metadata : EdgeMeta
deriving DecidableEq

/-- The mutable arena of one Network Builder invocation: the `nodes`,
`edges` and `contacts` maps of `buildNetworkFromCDRs`. -/
structure NetState where
  nodes : List (String × NetworkNode)
  edges : List (String × NetworkEdge)
  contacts : List (String × List String)
deriving DecidableEq

def zeroCentrality : Centrality :=
  { degree := 0, betweenness := 0, closeness := 0, eigenvector := 0 }

/-- networkAnalyzer.ts lines 153-174: the fresh CDR holder node. -/
def initCdrNode (msisdn : String) (provider : Provider) : NetworkNode :=
  { id := msisdn, label := msisdn, type := NodeType.peddler, role := "CDR Holder"
  , callCount := 0, totalDuration := 0, uniqueContacts := 0
  , centrality := zeroCentrality
  , metadata :=
    { incomingCalls := 0, outgoingCalls := 0, avgCallDuration := 0, nightCalls := 0
    , provider := some provider, imei := [], imsi := [], cellIds := []
    , influenceScore := none } }

/-- networkAnalyzer.ts lines 230-248: a fresh external contact node. -/
def initExternalNode (bParty : String) : NetworkNode :=
  { id := bParty, label := bParty, type := NodeType.external, role := "External Contact"
  , callCount := 0, totalDuration := 0, uniqueContacts := 0
  , centrality := zeroCentrality
  , metadata :=
    { incomingCalls := 0, outgoingCalls := 0, avgCallDuration := 0, nightCalls := 0
    , provider := none, imei := [], imsi := [], cellIds := []
    , influenceScore := none } }

/-- networkAnalyzer.ts line 208: `parseInt(time.split(':')[0]) || 12`.  Both
`NaN` and the midnight hour `0` are falsy and are replaced by 12. -/
def bnHour (time : String) : Int := jsOrZ (jsParseInt (beforeColon time)) 12

/-- The night test on an hour value: `hour >= 18 || hour < 6`. -/
def isNightHour (h : Int) : Bool := decide (18 ≤ h) || decide (h < 6)

/-- networkAnalyzer.ts lines 261-277: a fresh edge; `bidirectional` starts
`false`. -/
def newEdge (msisdn bParty : String) (duration : Int) (date time : String)
    (hour : Int) : NetworkEdge :=
  { id := msisdn ++ "-" ++ bParty, source := msisdn, target := bParty
  , weight := 1, callCount := 1, totalDuration := duration
  , avgDuration := (duration : Rat), bidirectional := false
  , metadata :=
    { firstCall := date ++ " " ++ time, lastCall := date ++ " " ++ time
    , nightCalls := if isNightHour hour then 1 else 0
    , dayTime := if isNightHour hour then DayTime.night else DayTime.day } }

/-- networkAnalyzer.ts lines 278-296: the per-record update of an existing
edge, including the recomputed dominant time-of-day. -/
def updEdge (duration : Int) (date time : String) (hour : Int) (e : NetworkEdge) :
    NetworkEdge :=
  let callCount := e.callCount + 1
  let totalDuration := e.totalDuration + duration
  let nightCalls := e.metadata.nightCalls + (if isNightHour hour then 1 else 0)
  let nightShare : Rat := (nightCalls : Rat) / (callCount : Rat)
  { e with
    callCount := callCount
  , weight := e.weight + 1
  , totalDuration := totalDuration
  , avgDuration := (totalDuration : Rat) / (callCount : Rat)
  , metadata :=
    { e.metadata with
      lastCall := date ++ " " ++ time
    , nightCalls := nightCalls
    , dayTime := if nightShare > 7/10 then DayTime.night
        else if nightShare < 3/10 then DayTime.day
        else DayTime.mixed } }

/-- networkAnalyzer.ts lines 254-297: create-or-update the edge of the
(account, counterparty) pair, probing both orderings of the key before
creating. -/
def edgeStep (edges : List (String × NetworkEdge)) (msisdn bParty : String)
    (duration : Int) (date time : String) (hour : Int) : List (String × NetworkEdge) :=
  let edgeId := msisdn ++ "-" ++ bParty
  let reverseEdgeId := bParty ++ "-" ++ msisdn
  if hasKeyM edges edgeId then
    updateM edges edgeId (updEdge duration date time hour)
  else if hasKeyM edges reverseEdgeId then
    updateM edges reverseEdgeId (updEdge duration date time hour)
  else
    edges ++ [(edgeId, newEdge msisdn bParty duration date time hour)]

/-- networkAnalyzer.ts lines 198-227: the per-record mutation of the CDR
holder node. -/
def updCdrNode (duration : Int) (callType : String) (hour : Int)
    (imei imsi cellId : String) (n : NetworkNode) : NetworkNode :=
  let isOut := lowerContains callType "out"
  { n with
    callCount := n.callCount + 1
  , totalDuration := n.totalDuration + duration
  , metadata :=
    { n.metadata with
      outgoingCalls := n.metadata.outgoingCalls + (if isOut then 1 else 0)
    , incomingCalls := n.metadata.incomingCalls + (if isOut then 0 else 1)
    , nightCalls := n.metadata.nightCalls + (if isNightHour hour then 1 else 0)
    , imei := if imei != "" && !n.metadata.imei.contains imei
        then n.metadata.imei ++ [imei] else n.metadata.imei
    , imsi := if imsi != "" && !n.metadata.imsi.contains imsi
        then n.metadata.imsi ++ [imsi] else n.metadata.imsi
    , cellIds := if cellId != "" && !n.metadata.cellIds.contains cellId
        then n.metadata.cellIds ++ [cellId] else n.metadata.cellIds } }

/-- networkAnalyzer.ts lines 250-252: the counterparty node accumulates the
call symmetrically (no direction split on that side). -/
def updBPartyNode (duration : Int) (n : NetworkNode) : NetworkNode :=
  { n with callCount := n.callCount + 1, totalDuration := n.totalDuration + duration }

/-- The in-flight state while folding one file's records. -/
structure RecAcc where
  nodes : List (String × NetworkNode)
  edges : List (String × NetworkEdge)
  cset : List String
deriving DecidableEq

/-- networkAnalyzer.ts lines 181-298: fold one mapping record of the file of
account `msisdn`.  The record fields go through the JavaScript `||` chains of
the source; `record.Duration` is already the number produced by the MAPPING
sheet, on which `parseInt(x || '0') || 0` is the identity. -/
def processRecord (msisdn : String) (st : RecAcc) (r : MappingRow) : RecAcc :=
  if r.bParty = "" then st
  else if r.bParty = msisdn then st
  else
    let bParty := r.bParty
    let duration := r.duration
    let time := jsOrS r.time "12:00"
    let date := jsOrS r.date "2024-01-01"
    let hour := bnHour time
    let cset := if st.cset.contains bParty then st.cset else st.cset ++ [bParty]
    let nodes1 := updateM st.nodes msisdn
      (updCdrNode duration r.callType hour r.imei r.imsi r.firstCellId)
    let nodes2 := if hasKeyM nodes1 bParty then nodes1
      else nodes1 ++ [(bParty, initExternalNode bParty)]
    let nodes3 := updateM nodes2 bParty (updBPartyNode duration)
    { nodes := nodes3
    , edges := edgeStep st.edges msisdn bParty duration date time hour
    , cset := cset }

/-- networkAnalyzer.ts lines 148-304: process one CDR file: initialize the
holder node, fold the records, then store the contact set and the derived
`uniqueContacts` / `avgCallDuration` on the holder node. -/
def processCdrFile (st : NetState) (cdr : ProcessedCDR) : NetState :=
  let nodes0 := if hasKeyM st.nodes cdr.msisdn then st.nodes
    else st.nodes ++ [(cdr.msisdn, initCdrNode cdr.msisdn cdr.provider)]
  let cset0 := (lookupM st.contacts cdr.msisdn).getD []
  let acc := cdr.mapping.foldl (processRecord cdr.msisdn)
    { nodes := nodes0, edges := st.edges, cset := cset0 }
  { nodes := updateM acc.nodes cdr.msisdn (fun n =>
      { n with
        uniqueContacts := acc.cset.length
      , metadata :=
        { n.metadata with
          avgCallDuration := if 0 < n.callCount
            then (n.totalDuration : Rat) / (n.callCount : Rat) else 0 } })
  , edges := acc.edges
  , contacts := setM st.contacts cdr.msisdn acc.cset }

/-- networkAnalyzer.ts lines 141-308. -/
def buildNetworkFromCDRs (processedCDRs : List ProcessedCDR) : NetState :=
  processedCDRs.foldl processCdrFile { nodes := [], edges := [], contacts := [] }

/-- The edges touching a node (networkAnalyzer.ts lines 315-317). -/
def connectionsOf (edges : List (String × NetworkEdge)) (nodeId : String) :
    List (String × NetworkEdge) :=
  edges.filter (fun p => p.2.source == nodeId || p.2.target == nodeId)

/-- networkAnalyzer.ts lines 310-323: the simplified centrality pass. -/
def calculateCentralities (nodes : List (String × NetworkNode))
    (edges : List (String × NetworkEdge)) : List (String × NetworkNode) :=
  nodes.map (fun p =>
    let conns := connectionsOf edges p.2.id
    (p.1, { p.2 with centrality :=
      { degree := (conns.length : Rat)
      , betweenness := (conns.length : Rat) * (1/2)
      , closeness := (conns.length : Rat) / ((max 1 (nodes.length - 1) : Nat) : Rat)
      , eigenvector := (conns.map (fun q => (q.2.weight : Rat))).sum } }))

/-- networkAnalyzer.ts lines 331-339: the influence score with exact weights
0.2 / 0.3 / 0.2 / 0.3. -/
def influenceOf (n : NetworkNode) : Rat :=
  n.centrality.degree * (1/5) + n.centrality.betweenness * (3/10) +
    n.centrality.closeness * (1/5) + n.centrality.eigenvector * (3/10)

def setScore (n : NetworkNode) : NetworkNode :=
  { n with metadata := { n.metadata with influenceScore := some (influenceOf n) } }

/-- Stable insertion into a descending run, reproducing the stable
JavaScript sort with comparator `b.score - a.score` (an earlier element
stays ahead of an equal-scored later one). -/
def insertByScore (x : NetworkNode) : List NetworkNode → List NetworkNode
  | [] => [x]
  | y :: ys =>
    if (y.metadata.influenceScore.getD 0) ≤ (x.metadata.influenceScore.getD 0)
    then x :: y :: ys
    else y :: insertByScore x ys

/-- Stable descending sort by influence score. -/
def sortByScore : List NetworkNode → List NetworkNode
  | [] => []
  | x :: xs => insertByScore x (sortByScore xs)

/-- `incomingCalls / Math.max(1, callCount)` (networkAnalyzer.ts line 344). -/
def inFrac (n : NetworkNode) : Rat :=
  (n.metadata.incomingCalls : Rat) / ((max 1 n.callCount : Nat) : Rat)

/-- `nightCalls / Math.max(1, callCount)` (networkAnalyzer.ts line 345). -/
def nightFracN (n : NetworkNode) : Rat :=
  (n.metadata.nightCalls : Rat) / ((max 1 n.callCount : Nat) : Rat)

/-- The leader-tier test of the cascade (networkAnalyzer.ts lines 348-351):
top 10% rank and incoming ratio above 0.6 and night ratio above 0.4 and more
than 5 unique contacts. -/
def leaderCondB (i total : Nat) (n : NetworkNode) : Bool :=
  decide ((i : Int) < Int.ceil ((total : Rat) * (1/10))) &&
    decide (inFrac n > 3/5) && decide (nightFracN n > 2/5) &&
    decide (5 < n.uniqueContacts)

/-- The broker-tier test of the cascade (networkAnalyzer.ts lines 354-356):
betweenness above 2, incoming ratio in the middle band, more than 3 unique
contacts. -/
def brokerCondB (n : NetworkNode) : Bool :=
  decide (n.centrality.betweenness > 2) && decide (inFrac n > 3/10) &&
    decide (inFrac n < 7/10) && decide (3 < n.uniqueContacts)

/-- networkAnalyzer.ts lines 343-363: the three-tier priority cascade
applied to the node at sorted rank `i` among `total` ranked internal
nodes; the first matching tier wins, `peddler` is the fallback. -/
def assignRole (i total : Nat) (n : NetworkNode) : NetworkNode :=
  if leaderCondB i total n then
    { n with type := NodeType.kingpin, role := "Kingpin (High Influence Leader)" }
  else if brokerCondB n then
    { n with type := NodeType.middleman, role := "Middleman (Network Bridge)" }
  else
    { n with type := NodeType.peddler, role := "Peddler (End User)" }

/-- networkAnalyzer.ts lines 325-364: score, rank and classify the internal
(non-external) nodes in place; external nodes are untouched; with no
internal nodes the map is returned unchanged (line 329).  A node's rank is
recovered through its id, the associative-map image of the object identity
used by the in-place source mutation.  The `edges` parameter of the source
function is never read. -/
def classifyRoles (nodes : List (String × NetworkNode))
    (edges : List (String × NetworkEdge)) : List (String × NetworkNode) :=
  let cdrNodes := (nodes.map Prod.snd).filter (fun n => n.type != NodeType.external)
  if cdrNodes.isEmpty then nodes
  else
    let sorted := sortByScore (cdrNodes.map setScore)
    nodes.map (fun p =>
      if p.2.type != NodeType.external then
        (p.1, assignRole (sorted.findIdx (fun m => m.id == p.2.id)) sorted.length
          (setScore p.2))
      else p)

/-- The per-file contact set of the correlator (networkAnalyzer.ts lines
367-378): valid counterparties of the file, deduplicated in insertion
order. -/
def fileContacts (cdr : ProcessedCDR) : List String :=
  cdr.mapping.foldl (fun s r =>
    if r.bParty != "" && r.bParty != cdr.msisdn then addSet s r.bParty else s) []

/-- Increment the occurrence counter of one contact. -/
def bumpCount (m : List (String × Nat)) (x : String) : List (String × Nat) :=
  if hasKeyM m x then updateM m x (fun c => c + 1) else m ++ [(x, 1)]

/-- networkAnalyzer.ts lines 366-398: contacts occurring in at least two of
the per-file contact sets; fewer than two files yield the empty list. -/
def findCommonContacts (processedCDRs : List ProcessedCDR) : List String :=
  let contactMaps := processedCDRs.map fileContacts
  if contactMaps.length < 2 then []
  else
    let contactCounts := contactMaps.foldl (fun m s => s.foldl bumpCount m) []
    (contactCounts.filter (fun p => decide (2 ≤ p.2))).map Prod.fst

/-- networkAnalyzer.ts lines 56-65. -/
structure NetworkStatistics where
  totalNodes : Nat
  totalEdges : Nat
  kingpins : Nat
  middlemen : Nat
  peddlers : Nat
  externalContacts : Nat
  clusters : Nat
  networkDensity : Rat
deriving DecidableEq

/-- networkAnalyzer.ts lines 400-423. -/
def generateNetworkStatistics (nodes : List (String × NetworkNode))
    (edges : List (String × NetworkEdge)) : NetworkStatistics :=
  let nodeArray := nodes.map Prod.snd
  let totalNodes := nodeArray.length
  let totalEdges := edges.length
  let maxPossibleEdges : Rat := ((totalNodes : Rat) * ((totalNodes : Rat) - 1)) / 2
  { totalNodes := totalNodes
  , totalEdges := totalEdges
  , kingpins := (nodeArray.filter (fun n => n.type == NodeType.kingpin)).length
  , middlemen := (nodeArray.filter (fun n => n.type == NodeType.middleman)).length
  , peddlers := (nodeArray.filter (fun n => n.type == NodeType.peddler)).length
  , externalContacts := (nodeArray.filter (fun n => n.type == NodeType.external)).length
  , clusters := 1
  , networkDensity := if 0 < maxPossibleEdges then (totalEdges : Rat) / maxPossibleEdges
      else 0 }

/-- networkAnalyzer.ts lines 53-66. -/
structure NetworkData where
  nodes : List NetworkNode
  edges : List NetworkEdge
  statistics : NetworkStatistics
deriving DecidableEq

inductive Severity
  | low
  | medium
  | high
deriving DecidableEq

/-- networkAnalyzer.ts lines 72-77. -/
structure SuspiciousPattern where
  ptype : String
  description : String
  nodes : List String
  severity : Severity
deriving DecidableEq

/-- networkAnalyzer.ts lines 68-78. -/
structure NetworkAnalysisResult where
  internalNetwork : NetworkData
  fullNetwork : NetworkData
  commonContacts : List String
  suspiciousPatterns : List SuspiciousPattern
deriving DecidableEq

/-- The terminal-error wrapper of the outer catch (networkAnalyzer.ts line
537). -/
def wrapErr (msg : String) : String := "Failed to analyze CDR network: " ++ msg

/-- networkAnalyzer.ts lines 425-539.  CSV parsing is the external
collaborator; each file arrives as its parsed row list.  All downstream
processing is total, so the only error exits are the two structural
guards. -/
def analyzeNetworkFromCDRs (files : List (String × List RawRow)) :
    Except String NetworkAnalysisResult :=
  if files.length = 0 then Except.error (wrapErr "No files provided for analysis")
  else
    let processedCDRs := files.map (fun f => processCDRData f.2 f.1)
    let net := buildNetworkFromCDRs processedCDRs
    if net.nodes.length = 0 then
      Except.error
        (wrapErr "No valid network nodes could be created from the provided CDR data")
    else
      let allNodes := classifyRoles (calculateCentralities net.nodes net.edges) net.edges
      let cdrNumbers := processedCDRs.map (fun c => c.msisdn)
      let internalNodes := allNodes.filter (fun p => cdrNumbers.contains p.1)
      let internalEdges := net.edges.filter (fun p =>
        cdrNumbers.contains p.2.source && cdrNumbers.contains p.2.target)
      let commonContacts := findCommonContacts processedCDRs
      Except.ok
        { internalNetwork :=
            { nodes := internalNodes.map Prod.snd
            , edges := internalEdges.map Prod.snd
            , statistics := generateNetworkStatistics internalNodes internalEdges }
        , fullNetwork :=
            { nodes := allNodes.map Prod.snd
            , edges := net.edges.map Prod.snd
            , statistics := generateNetworkStatistics allNodes net.edges }
        , commonContacts := commonContacts
        , suspiciousPatterns :=
            [ { ptype := "High Night Activity"
              , description := "Nodes with >60% night calls"
              , nodes := ((allNodes.map Prod.snd).filter (fun n =>
                  ((n.metadata.nightCalls : Rat) / ((max 1 n.callCount : Nat) : Rat)) > 3/5)).map
                    (fun n => n.id)
              , severity := Severity.high }
            , { ptype := "Common External Contacts"
              , description := "External contacts connected to multiple CDR holders"
              , nodes := commonContacts
              , severity := Severity.medium } ] }

/-!
### Concrete sample values used by witnesses and counterexamples
-/

/-- A minimal mapping row with the fields the network builder reads. -/
def sampleRow (bParty date time : String) (duration : Int) (callType : String) :
    MappingRow :=
  { cdrNo := "", bParty := bParty, date := date, time := time, duration := duration
  , callType := callType, firstCellId := "", firstCellAddress := "", lastCellId := ""
  , lastCellAddress := "", imei := "", imsi := "", roaming := "", serviceType := ""
  , numTmp := "", lrn := "", callForward := "", timeHH := "" }

/-- A minimal processed CDR for direct network-builder inputs. -/
def sampleCdr (msisdn : String) (mapping : List MappingRow) : ProcessedCDR :=
  { fileName := "", msisdn := msisdn, provider := Provider.VODAFONE
  , mapping := mapping, summary := [] }

/-- Fallback node value for `Option.getD` in closed statements. -/
def defaultNode : NetworkNode := initExternalNode "none"

/-!
### Definitions following the specification wording, for refinement
comparisons against the embedded source
-/

/-- Claim wording for C2: a token of "10+ consecutive digits" is present in
the text (the broader fallback pattern the specification describes). -/
def hasDigitRun10 : List Char → Bool
  | [] => false
  | c :: rest =>
    decide (10 ≤ ((c :: rest).takeWhile Char.isDigit).length) || hasDigitRun10 rest

/-- Claim wording for C3: the weight-weighted degree of a node, i.e. the sum
of the weights of the edges touching it. -/
def weightedDegreeOf (edges : List (String × NetworkEdge)) (nodeId : String) : Rat :=
  ((connectionsOf edges nodeId).map (fun q => (q.2.weight : Rat))).sum

/-- Claim wording for C3: "eigenvector equals the sum of each neighbor's
weight-weighted degree" - for every incident edge, the weight-weighted degree
of the opposite endpoint. -/
def specNeighborEigen (edges : List (String × NetworkEdge)) (nodeId : String) : Rat :=
  ((connectionsOf edges nodeId).map (fun q =>
    weightedDegreeOf edges (if q.2.source == nodeId then q.2.target else q.2.source))).sum

/-- Claim wording for C5: the distinct accounts of the input files. -/
def accountsOf (cdrs : List ProcessedCDR) : List String :=
  cdrs.foldl (fun l c => addSet l c.msisdn) []

/-- Claim wording for C5: one account's record-set contacts - the union of
the per-file contact sets of every file of that account. -/
def accountContacts (cdrs : List ProcessedCDR) (a : String) : List String :=
  (cdrs.filter (fun c => c.msisdn == a)).foldl (fun l c => (fileContacts c).foldl addSet l) []

/-- Claim wording for C5: the number of distinct accounts in whose record
sets `x` appears as a counterparty. -/
def distinctAccountCount (cdrs : List ProcessedCDR) (x : String) : Nat :=
  ((accountsOf cdrs).filter (fun a => (accountContacts cdrs a).contains x)).length

/-!
### C1 - empty input record set and the SUMMARY sheet
-/

/-- C1 counterexample: with zero valid canonical records the SUMMARY sheet
has zero rows, not the claimed single all-zero row. -/
theorem c1_empty_summary_not_one_row :
    ¬ ((generateSummary ([] : List RawRow) Provider.VODAFONE "9999999999").length = 1) := by
  decide

/-- C1 (amended): for an empty valid-record set the Report Generator's
SUMMARY sheet is the empty table (`generateSummary` folds the contact map of
an empty list, leaving no entries to emit). -/
theorem c1_empty_summary_is_empty_table :
    ∀ (provider : Provider) (msisdn : String), generateSummary [] provider msisdn = [] := by
  intro provider msisdn
  rfl

/-!
### C2 - account-identifier extraction fallback behavior
-/

/-- C2 counterexample: a header that matches none of the resolved
(VODAFONE) profile's patterns but contains a 10-digit token still produces
the sentinel "Unknown": the claimed broader 10-plus-digit fallback does not
exist in `extractMSISDN`. -/
theorem c2_no_ten_digit_fallback :
    extractMSISDN [["ACCOUNT 1234567890 DETAILS"]] vodafoneConfig Provider.VODAFONE
        = "Unknown"
      ∧ hasDigitRun10 ("ACCOUNT 1234567890 DETAILS").data = true := by
  exact ⟨by decide, by decide⟩

/-- The row scan of `extractMSISDN` returns the sentinel when no pattern
matches any scanned row. -/
theorem extractGo_no_hit (cfg : ProviderConfig) (provider : Provider) :
    ∀ l : List RawRow, (∀ row ∈ l, rowPatterns cfg provider (joinRow row).data = none) →
      extractGo cfg provider l = "Unknown" := by
  intro l
  induction l with
  | nil => intro _; rfl
  | cons row rest ih =>
    intro h
    unfold extractGo
    by_cases ht : trimL (joinRow row).data = []
    · simpa [ht] using ih (fun r hr => h r (List.mem_cons_of_mem _ hr))
    · simpa [ht, h row (List.mem_cons_self _ _)] using
        ih (fun r hr => h r (List.mem_cons_of_mem _ hr))

/-- C2 (amended): when no profile pattern - neither the primary IMEI/MSISDN
patterns nor the provider-specific fallback patterns - matches any of the 25
scanned header rows, extraction returns the literal sentinel "Unknown"; the
function is total, so the pipeline is never aborted. -/
theorem c2_unknown_when_no_pattern_matches
    (data : List RawRow) (cfg : ProviderConfig) (provider : Provider)
    (h : ∀ row ∈ data.take 25, rowPatterns cfg provider (joinRow row).data = none) :
    extractMSISDN data cfg provider = "Unknown" :=
  extractGo_no_hit cfg provider (data.take 25) h

/-- Witness for C2 (amended) at a concrete input. -/
theorem c2_unknown_when_no_pattern_matches_witness :
    extractMSISDN [] vodafoneConfig Provider.VODAFONE = "Unknown" :=
  c2_unknown_when_no_pattern_matches [] vodafoneConfig Provider.VODAFONE
    (by intro row hr; simp at hr)

/-!
### C9 - night/day classification boundaries
-/

/-- C9: the four boundary examples hold for `isNightTime` (and for the
builder's hour computation), but the builder computes the hour as
`parseInt(...) || 12`, so the falsy midnight hour 0 becomes 12: a 00:30 call
is counted as day by `buildNetworkFromCDRs` (`nightCalls` stays 0) although
the canonical rule hour >= 18 or hour < 6 - and `isNightTime` itself -
classifies 00:30 as night. -/
theorem c9_night_boundary_and_midnight_bug :
    isNightTime "17:59" = false ∧ isNightTime "18:00" = true ∧
      isNightTime "05:59" = true ∧ isNightTime "06:00" = false ∧
      isNightHour (bnHour "17:59") = false ∧ isNightHour (bnHour "18:00") = true ∧
      isNightHour (bnHour "05:59") = true ∧ isNightHour (bnHour "06:00") = false ∧
      isNightTime "00:30" = true ∧ bnHour "00:30" = 12 ∧
      isNightHour (bnHour "00:30") = false ∧
      ((lookupM (buildNetworkFromCDRs
            [sampleCdr "111" [sampleRow "222" "2024-01-01" "00:30" 10 "IN"]]).nodes
          "111").map (fun (n : NetworkNode) => n.metadata.nightCalls)) = some 0 := by
  decide

/-!
### C8 - format detection priority and default
-/

/-- The profile object belonging to each provider tag. -/
def configOf : Provider → ProviderConfig
  | Provider.AIRTEL => airtelConfig
  | Provider.BSNL => bsnlConfig
  | Provider.JIO => jioConfig
  | Provider.VODAFONE => vodafoneConfig

/-- C8: the Format Detector returns the first profile, in the fixed order
AIRTEL, BSNL, JIO, VODAFONE, having any signature substring in the uppercased
blob of the first 20 rows (`searchBlob`); with no hit anywhere it defaults to
VODAFONE (so VODAFONE is returned exactly when no earlier profile hits,
whether or not a VODAFONE signature is present); the returned config always
belongs to the returned provider; the function is total, so it never
throws. -/
theorem c8_detect_provider_first_match (data : List RawRow) :
    ((detectProvider data).1 = Provider.AIRTEL ↔
        anyIdentifierHit airtelConfig (searchBlob data) = true)
    ∧ ((detectProvider data).1 = Provider.BSNL ↔
        (anyIdentifierHit airtelConfig (searchBlob data) = false ∧
          anyIdentifierHit bsnlConfig (searchBlob data) = true))
    ∧ ((detectProvider data).1 = Provider.JIO ↔
        (anyIdentifierHit airtelConfig (searchBlob data) = false ∧
          anyIdentifierHit bsnlConfig (searchBlob data) = false ∧
          anyIdentifierHit jioConfig (searchBlob data) = true))
    ∧ ((detectProvider data).1 = Provider.VODAFONE ↔
        (anyIdentifierHit airtelConfig (searchBlob data) = false ∧
          anyIdentifierHit bsnlConfig (searchBlob data) = false ∧
          anyIdentifierHit jioConfig (searchBlob data) = false))
    ∧ (detectProvider data).2 = configOf (detectProvider data).1 := by
  cases hA : anyIdentifierHit airtelConfig (searchBlob data) <;>
    cases hB : anyIdentifierHit bsnlConfig (searchBlob data) <;>
      cases hJ : anyIdentifierHit jioConfig (searchBlob data) <;>
        cases hV : anyIdentifierHit vodafoneConfig (searchBlob data) <;>
          simp [detectProvider, providerConfigList, List.find?, hA, hB, hJ, hV, configOf]

/-!
### C7 - terminal errors are exactly the structural failures
-/

/-- Observation of the error exit of the analysis. -/
def isErrExcept (e : Except String NetworkAnalysisResult) : Bool :=
  match e with
  | Except.error _ => true
  | Except.ok _ => false

/-- C7: the analysis raises its terminal error exactly when zero files are
supplied or zero nodes can be built from them; in every other case the
embedded pipeline - in which every data-quality gap resolves locally to a
default - is total and returns a result. -/
theorem c7_terminal_error_iff_structural (files : List (String × List RawRow)) :
    isErrExcept (analyzeNetworkFromCDRs files)
      = (decide (files.length = 0) ||
          decide ((buildNetworkFromCDRs
            (files.map (fun f => processCDRData f.2 f.1))).nodes.length = 0)) := by
  by_cases h0 : files.length = 0
  · simp [analyzeNetworkFromCDRs, isErrExcept, h0]
  · by_cases h1 : (buildNetworkFromCDRs
        (files.map (fun f => processCDRData f.2 f.1))).nodes.length = 0
    · simp [analyzeNetworkFromCDRs, isErrExcept, h0, h1]
    · simp [analyzeNetworkFromCDRs, isErrExcept, h0, h1]

/-!
### Association-list and dedup-set lemmas
-/

theorem lookupM_cons {α : Type} (q : String × α) (m : List (String × α)) (k : String) :
    lookupM (q :: m) k = if q.1 = k then some q.2 else lookupM m k := by
  by_cases h : q.1 = k
  · simp [lookupM, List.find?_cons_of_pos _ (show (q.1 == k) = true by simpa using h), h]
  · simp [lookupM, List.find?_cons_of_neg _ (show ¬(q.1 == k) = true by simpa using h), h]

theorem lookupM_append {α : Type} (m₁ m₂ : List (String × α)) (k : String) :
    lookupM (m₁ ++ m₂) k = (lookupM m₁ k).or (lookupM m₂ k) := by
  unfold lookupM
  rw [List.find?_append]
  cases m₁.find? (fun p => p.1 == k) <;> simp [Option.or]

theorem hasKeyM_false_lookupM_none {α : Type} {m : List (String × α)} {k : String}
    (h : hasKeyM m k = false) : lookupM m k = none := by
  unfold hasKeyM at h
  unfold lookupM
  cases hf : m.find? (fun p => p.1 == k)
  · rfl
  · rw [hf] at h; cases h

theorem hasKeyM_true_lookupM_some {α : Type} {m : List (String × α)} {k : String}
    (h : hasKeyM m k = true) : ∃ v, lookupM m k = some v := by
  unfold hasKeyM at h
  unfold lookupM
  cases hf : m.find? (fun p => p.1 == k)
  · rw [hf] at h; cases h
  · exact ⟨_, rfl⟩

theorem lookupM_mem {α : Type} {m : List (String × α)} {k : String} {v : α}
    (h : lookupM m k = some v) : (k, v) ∈ m := by
  unfold lookupM at h
  cases hf : m.find? (fun p => p.1 == k) with
  | none => rw [hf] at h; cases h
  | some x =>
    rw [hf] at h
    have hx : x ∈ m := List.mem_of_find?_eq_some hf
    have hk : x.1 = k := by simpa using List.find?_some hf
    have hv : x.2 = v := by simpa using h
    rw [← hk, ← hv]
    simpa using hx

theorem keys_updateM {α : Type} (m : List (String × α)) (k : String) (f : α → α) :
    (updateM m k f).map Prod.fst = m.map Prod.fst := by
  unfold updateM
  induction m with
  | nil => rfl
  | cons q t ih =>
    by_cases h : q.1 = k <;> simp [h] <;> simpa using ih

theorem lookupM_updateM {α : Type} (m : List (String × α)) (k k2 : String) (f : α → α) :
    lookupM (updateM m k f) k2 =
      if k2 = k then (lookupM m k2).map f else lookupM m k2 := by
  induction m with
  | nil => by_cases h : k2 = k <;> simp [updateM, lookupM, h]
  | cons q t ih =>
    show lookupM ((if q.1 == k then (q.1, f q.2) else q) :: updateM t k f) k2 = _
    by_cases hqk : q.1 = k
    · by_cases h2k : k2 = k
      · subst h2k
        by_cases hq2 : q.1 = k2
        · simp [hqk, lookupM_cons, hq2, ih]
        · exact absurd hqk hq2
      · have hq2 : q.1 ≠ k2 := fun hh => h2k (hh ▸ hqk)
        have h2k2 : ¬k = k2 := fun hh => h2k hh.symm
        simp [hqk, lookupM_cons, hq2, ih, h2k, h2k2]
    · by_cases hq2 : q.1 = k2
      · by_cases h2k : k2 = k
        · exact absurd (h2k ▸ hq2) hqk
        · simp [hqk, lookupM_cons, hq2, h2k]
      · simp [hqk, lookupM_cons, hq2, ih]

theorem mem_lookupM_of_nodupKeys {α : Type} {m : List (String × α)}
    (h : (m.map Prod.fst).Nodup) {k : String} {v : α} (hm : (k, v) ∈ m) :
    lookupM m k = some v := by
  induction m with
  | nil => cases hm
  | cons q t ih =>
    rw [lookupM_cons]
    rcases List.mem_cons.mp hm with heq | hm2
    · rw [← heq]; simp
    · have hkt : k ∈ t.map Prod.fst := List.mem_map.mpr ⟨(k, v), hm2, rfl⟩
      have h2 : (q.1 :: t.map Prod.fst).Nodup := by simpa using h
      have hnd := List.nodup_cons.mp h2
      have hq : q.1 ≠ k := fun hq => hnd.1 (hq ▸ hkt)
      simp only [hq, if_false]
      exact ih hnd.2 hm2

theorem mem_addSet {l : List String} {x y : String} :
    y ∈ addSet l x ↔ y ∈ l ∨ y = x := by
  unfold addSet
  by_cases h : l.contains x
  · have hx : x ∈ l := by simpa [List.contains] using h
    simp only [h, if_true]
    exact ⟨Or.inl, fun hy => hy.elim id (fun hh => hh ▸ hx)⟩
  · have hx : x ∉ l := by simpa [List.contains] using h
    simp [hx]

theorem nodup_addSet {l : List String} (h : l.Nodup) (x : String) : (addSet l x).Nodup := by
  unfold addSet
  by_cases hc : l.contains x
  · have hx : x ∈ l := by simpa [List.contains] using hc
    simpa [hx] using h
  · have hx : x ∉ l := by simpa [List.contains] using hc
    simp [hx, List.nodup_append, h]

/-!
### C5 - cross-file correlation
-/

/-- The occurrence count stored for a contact. -/
def getCount (m : List (String × Nat)) (x : String) : Nat := (lookupM m x).getD 0

theorem getCount_bumpCount (m : List (String × Nat)) (x y : String) :
    getCount (bumpCount m x) y = if y = x then getCount m y + 1 else getCount m y := by
  unfold bumpCount getCount
  cases hk : hasKeyM m x with
  | true =>
    simp only [hk, if_true]
    rw [lookupM_updateM]
    by_cases hyx : y = x
    · subst hyx
      rcases hasKeyM_true_lookupM_some hk with ⟨v, hv⟩
      simp [hv]
    · simp [hyx]
  | false =>
    simp only [hk, Bool.false_eq_true, if_false]
    rw [lookupM_append]
    by_cases hyx : y = x
    · subst hyx
      rw [hasKeyM_false_lookupM_none hk]
      simp [lookupM_cons]
    · have hxy : ¬(x = y) := fun h => hyx h.symm
      have hone : lookupM [(x, 1)] y = none := by
        rw [lookupM_cons]
        simp [hxy, lookupM]
      rw [hone]
      cases lookupM m y <;> simp [Option.or, hyx]

theorem getCount_foldl_bump (s : List String) :
    ∀ (m : List (String × Nat)) (y : String), s.Nodup →
      getCount (s.foldl bumpCount m) y = getCount m y + (if y ∈ s then 1 else 0) := by
  induction s with
  | nil => intro m y _; simp
  | cons a t ih =>
    intro m y hnd
    have hpair := List.nodup_cons.mp hnd
    simp only [List.foldl_cons]
    rw [ih _ y hpair.2, getCount_bumpCount]
    by_cases hya : y = a
    · subst hya
      simp [hpair.1]
    · simp [hya, List.mem_cons]

theorem getCount_fold_sets (sets : List (List String)) :
    ∀ (m : List (String × Nat)) (y : String), (∀ s ∈ sets, s.Nodup) →
      getCount (sets.foldl (fun m s => s.foldl bumpCount m) m) y
        = getCount m y + sets.countP (fun s => s.contains y) := by
  induction sets with
  | nil => intro m y _; simp
  | cons s t ih =>
    intro m y h
    simp only [List.foldl_cons]
    rw [ih _ y (fun s2 hs2 => h s2 (List.mem_cons_of_mem _ hs2)),
      getCount_foldl_bump s _ y (h s (List.mem_cons_self _ _)), List.countP_cons]
    by_cases hy : y ∈ s
    · have : (s.contains y) = true := by simpa [List.contains] using hy
      simp [hy, this]
      omega
    · have : (s.contains y) = false := by simpa [List.contains] using hy
      simp [hy, this]

theorem nodupKeys_bumpCount (m : List (String × Nat)) (x : String)
    (h : (m.map Prod.fst).Nodup) : ((bumpCount m x).map Prod.fst).Nodup := by
  unfold bumpCount
  cases hk : hasKeyM m x with
  | true => simpa [keys_updateM] using h
  | false =>
    have hx : x ∉ m.map Prod.fst := by
      intro hmem
      rcases List.mem_map.mp hmem with ⟨p, hp, hfst⟩
      have : lookupM m x = none := hasKeyM_false_lookupM_none hk
      rw [show x = p.1 from hfst.symm] at this
      have := mem_lookupM_of_nodupKeys h (show (p.1, p.2) ∈ m by simpa using hp)
      simp_all
    simp [hk, List.nodup_append, h, hx]

theorem nodupKeys_foldl_bump (s : List String) :
    ∀ m : List (String × Nat), (m.map Prod.fst).Nodup →
      ((s.foldl bumpCount m).map Prod.fst).Nodup := by
  induction s with
  | nil => intro m h; exact h
  | cons a t ih => intro m h; exact ih _ (nodupKeys_bumpCount m a h)

theorem nodupKeys_fold_sets (sets : List (List String)) :
    ∀ m : List (String × Nat), (m.map Prod.fst).Nodup →
      ((sets.foldl (fun m s => s.foldl bumpCount m) m).map Prod.fst).Nodup := by
  induction sets with
  | nil => intro m h; exact h
  | cons s t ih => intro m h; exact ih _ (nodupKeys_foldl_bump s m h)

theorem nodup_foldl_contacts (l : List MappingRow) (msisdn : String) :
    ∀ s : List String, s.Nodup →
      (l.foldl (fun s r =>
        if r.bParty != "" && r.bParty != msisdn then addSet s r.bParty else s) s).Nodup := by
  induction l with
  | nil => intro s h; exact h
  | cons r t ih =>
    intro s h
    simp only [List.foldl_cons]
    cases hc : (r.bParty != "" && r.bParty != msisdn) with
    | true => simp only [hc, if_true]; exact ih _ (nodup_addSet h _)
    | false => simp only [hc, Bool.false_eq_true, if_false]; exact ih _ h

theorem fileContacts_nodup (c : ProcessedCDR) : (fileContacts c).Nodup :=
  nodup_foldl_contacts c.mapping c.msisdn [] List.nodup_nil

theorem mem_foldl_contacts (msisdn : String) (x : String) (l : List MappingRow) :
    ∀ s : List String,
      (x ∈ l.foldl (fun s r =>
          if r.bParty != "" && r.bParty != msisdn then addSet s r.bParty else s) s
        ↔ x ∈ s ∨ ∃ r ∈ l, r.bParty = x ∧ x ≠ "" ∧ x ≠ msisdn) := by
  induction l with
  | nil => intro s; simp
  | cons r t ih =>
    intro s
    simp only [List.foldl_cons]
    cases hc : (r.bParty != "" && r.bParty != msisdn) with
    | true =>
      have hcc := hc
      rw [Bool.and_eq_true, bne_iff_ne, bne_iff_ne] at hcc
      simp only [hc, if_true]
      rw [ih, mem_addSet]
      constructor
      · rintro (((hs | heq) | ⟨r2, hr2, hx⟩))
        · exact Or.inl hs
        · exact Or.inr ⟨r, List.mem_cons_self _ _, heq.symm, heq ▸ hcc.1, heq ▸ hcc.2⟩
        · exact Or.inr ⟨r2, List.mem_cons_of_mem _ hr2, hx⟩
      · rintro ((hs | ⟨r2, hr2, hb, hx1, hx2⟩))
        · exact Or.inl (Or.inl hs)
        · rcases List.mem_cons.mp hr2 with heq | hmem
          · exact Or.inl (Or.inr (heq ▸ hb).symm)
          · exact Or.inr ⟨r2, hmem, hb, hx1, hx2⟩
    | false =>
      have hcc := hc
      simp only [hc, Bool.false_eq_true, if_false]
      rw [ih]
      rw [Bool.and_eq_false_iff] at hcc
      constructor
      · rintro (hs | ⟨r2, hr2, hx⟩)
        · exact Or.inl hs
        · exact Or.inr ⟨r2, List.mem_cons_of_mem _ hr2, hx⟩
      · rintro (hs | ⟨r2, hr2, hb, hx1, hx2⟩)
        · exact Or.inl hs
        · rcases List.mem_cons.mp hr2 with heq | hmem
          · subst heq
            rcases hcc with hcc | hcc <;> rw [bne_eq_false_iff_eq] at hcc
            · exact absurd (hcc ▸ hb) (Ne.symm hx1)
            · exact absurd (hcc ▸ hb) (Ne.symm hx2)
          · exact Or.inr ⟨r2, hmem, hb, hx1, hx2⟩

theorem mem_fileContacts (c : ProcessedCDR) (x : String) :
    x ∈ fileContacts c ↔ ∃ r ∈ c.mapping, r.bParty = x ∧ x ≠ "" ∧ x ≠ c.msisdn := by
  unfold fileContacts
  simpa using mem_foldl_contacts c.msisdn x c.mapping []

/-- C5 (amended): the Cross-File Correlator returns exactly the
counterparties appearing in at least 2 of the per-file contact sets - files
are counted separately even when they share an account - and with fewer
than 2 input files it returns the empty list without error.  The second
conjunct characterizes a per-file contact set by the file's records. -/
theorem c5_common_contacts_per_file (cdrs : List ProcessedCDR) (x : String) :
    (x ∈ findCommonContacts cdrs ↔
        (2 ≤ cdrs.length ∧
          2 ≤ (cdrs.map fileContacts).countP (fun s => s.contains x)))
    ∧ (∀ c : ProcessedCDR, x ∈ fileContacts c ↔
        ∃ r ∈ c.mapping, r.bParty = x ∧ x ≠ "" ∧ x ≠ c.msisdn)
    ∧ (cdrs.length < 2 → findCommonContacts cdrs = []) := by
  refine ⟨?_, fun c => mem_fileContacts c x, ?_⟩
  · by_cases hlen : (cdrs.map fileContacts).length < 2
    · have h2 : ¬ 2 ≤ cdrs.length := by
        rw [List.length_map] at hlen
        omega
      simp [findCommonContacts, hlen, h2]
    · have hnd : ∀ s ∈ cdrs.map fileContacts, s.Nodup := by
        intro s hs
        rcases List.mem_map.mp hs with ⟨c, _, rfl⟩
        exact fileContacts_nodup c
      have hkeys := nodupKeys_fold_sets (cdrs.map fileContacts) [] (by simp)
      have hcnt : ∀ y, getCount ((cdrs.map fileContacts).foldl
            (fun m s => s.foldl bumpCount m) []) y
          = (cdrs.map fileContacts).countP (fun s => s.contains y) := by
        intro y
        have := getCount_fold_sets (cdrs.map fileContacts) [] y hnd
        simpa [getCount, lookupM] using this
      have hlen2 : 2 ≤ cdrs.length := by
        rw [List.length_map] at hlen
        omega
      simp only [findCommonContacts, hlen, if_false]
      constructor
      · intro hx
        rcases List.mem_map.mp hx with ⟨p, hp, rfl⟩
        rcases List.mem_filter.mp hp with ⟨hpc, hp2⟩
        have hp2b : 2 ≤ p.2 := by simpa using hp2
        have hl : lookupM ((cdrs.map fileContacts).foldl
            (fun m s => s.foldl bumpCount m) []) p.1 = some p.2 :=
          mem_lookupM_of_nodupKeys hkeys (by simpa using hpc)
        have hgc := hcnt p.1
        rw [getCount, hl] at hgc
        simp only [Option.getD_some] at hgc
        exact ⟨hlen2, by omega⟩
      · rintro ⟨_, hcount⟩
        have hg := hcnt x
        cases hI : lookupM ((cdrs.map fileContacts).foldl
            (fun m s => s.foldl bumpCount m) []) x with
        | none =>
          rw [getCount, hI] at hg
          simp only [Option.getD_none] at hg
          omega
        | some c =>
          rw [getCount, hI] at hg
          simp only [Option.getD_some] at hg
          have hmem := lookupM_mem hI
          exact List.mem_map.mpr
            ⟨(x, c), List.mem_filter.mpr ⟨hmem, by simp; omega⟩, rfl⟩
  · intro h
    have hc : (cdrs.map fileContacts).length < 2 := by
      rw [List.length_map]
      omega
    unfold findCommonContacts
    rw [if_pos hc]

/-- Witness for C5 (amended) discharging the fewer-than-two-files branch at
a concrete one-file input. -/
theorem c5_common_contacts_per_file_witness :
    findCommonContacts [sampleCdr "111" [sampleRow "222" "2024-01-01" "10:00" 5 "IN"]]
      = [] :=
  (c5_common_contacts_per_file
      [sampleCdr "111" [sampleRow "222" "2024-01-01" "10:00" 5 "IN"]] "222").2.2
    (by decide)

/-- C5 counterexample: two files of the same account "111", each containing
counterparty "222".  The code returns "222" as a common contact although it
appears in only one distinct account's record set (the claim's threshold of
2 distinct accounts is not met): the correlator counts files, not distinct
accounts. -/
theorem c5_duplicate_account_counterexample :
    findCommonContacts
        [sampleCdr "111" [sampleRow "222" "2024-01-01" "10:00" 5 "IN"],
         sampleCdr "111" [sampleRow "222" "2024-01-02" "11:00" 5 "OUT"]]
      = ["222"]
    ∧ distinctAccountCount
        [sampleCdr "111" [sampleRow "222" "2024-01-01" "10:00" 5 "IN"],
         sampleCdr "111" [sampleRow "222" "2024-01-02" "11:00" 5 "OUT"]] "222" = 1 := by
  exact ⟨by decide, by decide⟩

/-!
### C6 - role cascade exclusivity
-/

/-- The cascade always assigns exactly one of the three internal types. -/
theorem assignRole_type (i total : Nat) (n : NetworkNode) :
    (assignRole i total n).type = NodeType.kingpin ∨
      (assignRole i total n).type = NodeType.middleman ∨
      (assignRole i total n).type = NodeType.peddler := by
  unfold assignRole
  by_cases h1 : leaderCondB i total n = true
  · simp [h1]
  · by_cases h2 : brokerCondB n = true
    · simp [h1, h2]
    · simp [h1, h2]

/-- C6: role classification is a three-tier priority cascade.  With zero
internal nodes it is a no-op; afterwards every internal node carries exactly
one of the three internal types (and its matching role string), assigned by
the first matching tier: the leader test strictly precedes the broker test
and `peddler` is the unconditional fallback; external nodes pass through
untouched. -/
theorem c6_role_cascade (nodes : List (String × NetworkNode))
    (edges : List (String × NetworkEdge)) (i total : Nat) (n : NetworkNode) :
    (((nodes.map Prod.snd).filter (fun m => m.type != NodeType.external)) = [] →
        classifyRoles nodes edges = nodes)
    ∧ (∀ p ∈ classifyRoles nodes edges, p.2.type ≠ NodeType.external →
        (p.2.type = NodeType.kingpin ∨ p.2.type = NodeType.middleman ∨
          p.2.type = NodeType.peddler))
    ∧ (∀ p ∈ nodes, p.2.type = NodeType.external → p ∈ classifyRoles nodes edges)
    ∧ (leaderCondB i total n = true →
        (assignRole i total n).type = NodeType.kingpin ∧
          (assignRole i total n).role = "Kingpin (High Influence Leader)")
    ∧ (leaderCondB i total n = false → brokerCondB n = true →
        (assignRole i total n).type = NodeType.middleman ∧
          (assignRole i total n).role = "Middleman (Network Bridge)")
    ∧ (leaderCondB i total n = false → brokerCondB n = false →
        (assignRole i total n).type = NodeType.peddler ∧
          (assignRole i total n).role = "Peddler (End User)") := by
  refine ⟨?_, ?_, ?_, ?_, ?_, ?_⟩
  · intro h
    simp [classifyRoles, h]
  · intro p hp hext
    cases hemp : ((nodes.map Prod.snd).filter
        (fun m => m.type != NodeType.external)).isEmpty with
    | true =>
      simp only [classifyRoles, hemp, if_true] at hp
      have hfil : p.2 ∈ (nodes.map Prod.snd).filter
          (fun m => m.type != NodeType.external) :=
        List.mem_filter.mpr ⟨List.mem_map.mpr ⟨p, hp, rfl⟩, by simpa using hext⟩
      rw [List.isEmpty_iff.mp hemp] at hfil
      cases hfil
    | false =>
      simp only [classifyRoles, hemp, Bool.false_eq_true, if_false] at hp
      rcases List.mem_map.mp hp with ⟨q, hq, rfl⟩
      cases hqt : (q.2.type != NodeType.external) with
      | true =>
        simp only [hqt, if_true]
        exact assignRole_type _ _ _
      | false =>
        have hqe : q.2.type = NodeType.external := by simpa using hqt
        simp only [hqt, Bool.false_eq_true, if_false] at hext
        exact absurd hqe hext
  · intro p hp hext
    cases hemp : ((nodes.map Prod.snd).filter
        (fun m => m.type != NodeType.external)).isEmpty with
    | true =>
      simp only [classifyRoles, hemp, if_true]
      exact hp
    | false =>
      simp only [classifyRoles, hemp, Bool.false_eq_true, if_false]
      refine List.mem_map.mpr ⟨p, hp, ?_⟩
      simp [hext]
  · intro h
    unfold assignRole
    simp [h]
  · intro h1 h2
    unfold assignRole
    simp [h1, h2]
  · intro h1 h2
    unfold assignRole
    simp [h1, h2]

/-- Witness for C6 at concrete inputs: the no-op branch on an all-external
map, the exactly-one-role conclusion for a concrete internal node, and the
fallback tier of the cascade. -/
theorem c6_role_cascade_witness :
    classifyRoles [("x", initExternalNode "x")] [] = [("x", initExternalNode "x")]
    ∧ ((("111", (lookupM (classifyRoles [("111", initCdrNode "111" Provider.VODAFONE)] [])
          "111").getD defaultNode) : String × NetworkNode).2.type = NodeType.kingpin ∨
        (("111", (lookupM (classifyRoles [("111", initCdrNode "111" Provider.VODAFONE)] [])
          "111").getD defaultNode) : String × NetworkNode).2.type = NodeType.middleman ∨
        (("111", (lookupM (classifyRoles [("111", initCdrNode "111" Provider.VODAFONE)] [])
          "111").getD defaultNode) : String × NetworkNode).2.type = NodeType.peddler)
    ∧ (assignRole 0 1 (initCdrNode "111" Provider.VODAFONE)).type = NodeType.peddler
    ∧ (assignRole 0 1 (initCdrNode "111" Provider.VODAFONE)).role = "Peddler (End User)" := by
  refine ⟨(c6_role_cascade [("x", initExternalNode "x")] [] 0 0 defaultNode).1 (by decide),
    (c6_role_cascade [("111", initCdrNode "111" Provider.VODAFONE)] [] 0 0
        defaultNode).2.1
      ("111", (lookupM (classifyRoles [("111", initCdrNode "111" Provider.VODAFONE)] [])
        "111").getD defaultNode) (by decide) (by decide),
    ((c6_role_cascade [] [] 0 1 (initCdrNode "111" Provider.VODAFONE)).2.2.2.2.2
      (by decide) (by decide)).1,
    ((c6_role_cascade [] [] 0 1 (initCdrNode "111" Provider.VODAFONE)).2.2.2.2.2
      (by decide) (by decide)).2⟩

/-!
### Edge-fold projection lemmas (shared by C10, C4 and C3)
-/

/-- The edge-map effect of folding one record (the guard and field defaults
of `processRecord`, restricted to the `edges` component). -/
def edgeF (es : List (String × NetworkEdge)) (msisdn : String) (r : MappingRow) :
    List (String × NetworkEdge) :=
  if r.bParty = "" then es
  else if r.bParty = msisdn then es
  else
    edgeStep es msisdn r.bParty r.duration (jsOrS r.date "2024-01-01")
      (jsOrS r.time "12:00") (bnHour (jsOrS r.time "12:00"))

theorem processRecord_edges (msisdn : String) (st : RecAcc) (r : MappingRow) :
    (processRecord msisdn st r).edges = edgeF st.edges msisdn r := by
  unfold processRecord edgeF
  by_cases h1 : r.bParty = ""
  · simp [h1]
  · by_cases h2 : r.bParty = msisdn
    · simp [h1, h2]
    · simp [h1, h2]

theorem foldl_processRecord_edges (msisdn : String) (l : List MappingRow) :
    ∀ st : RecAcc, (l.foldl (processRecord msisdn) st).edges
      = l.foldl (fun es r => edgeF es msisdn r) st.edges := by
  induction l with
  | nil => intro st; rfl
  | cons r t ih =>
    intro st
    simp only [List.foldl_cons]
    rw [ih, processRecord_edges]

theorem processCdrFile_edges (st : NetState) (cdr : ProcessedCDR) :
    (processCdrFile st cdr).edges
      = cdr.mapping.foldl (fun es r => edgeF es cdr.msisdn r) st.edges := by
  unfold processCdrFile
  exact foldl_processRecord_edges cdr.msisdn cdr.mapping _

/-- The flattened (account, record) sequence of the input files; the edge
map is a fold of `edgeF` over it. -/
def flatRecords (cdrs : List ProcessedCDR) : List (String × MappingRow) :=
  cdrs.flatMap (fun c => c.mapping.map (fun r => (c.msisdn, r)))

theorem foldl_processCdrFile_edges (cdrs : List ProcessedCDR) :
    ∀ st : NetState, (cdrs.foldl processCdrFile st).edges
      = (flatRecords cdrs).foldl (fun es x => edgeF es x.1 x.2) st.edges := by
  induction cdrs with
  | nil => intro st; rfl
  | cons c t ih =>
    intro st
    simp only [List.foldl_cons, flatRecords, List.flatMap_cons, List.foldl_append]
    rw [ih, processCdrFile_edges, List.foldl_map]
    rfl

theorem buildNetwork_edges_eq (cdrs : List ProcessedCDR) :
    (buildNetworkFromCDRs cdrs).edges
      = (flatRecords cdrs).foldl (fun es x => edgeF es x.1 x.2) [] := by
  unfold buildNetworkFromCDRs
  exact foldl_processCdrFile_edges cdrs { nodes := [], edges := [], contacts := [] }

/-- Every entry of an edge-fold step is either an update of an old entry -
same key, source, target and bidirectional flag - or the freshly created
edge of the folded pair. -/
theorem edgeStep_shape (es : List (String × NetworkEdge)) (m b : String) (dur : Int)
    (date time : String) (hour : Int) :
    ∀ p ∈ edgeStep es m b dur date time hour,
      (∃ q ∈ es, p.1 = q.1 ∧ p.2.source = q.2.source ∧ p.2.target = q.2.target ∧
        p.2.bidirectional = q.2.bidirectional)
      ∨ (p.1 = m ++ "-" ++ b ∧ p.2.source = m ∧ p.2.target = b ∧
          p.2.bidirectional = false) := by
  intro p hp
  unfold edgeStep at hp
  by_cases h1 : hasKeyM es (m ++ "-" ++ b)
  · rw [if_pos h1] at hp
    rcases List.mem_map.mp hp with ⟨q, hq, rfl⟩
    left
    by_cases hk : q.1 = (m ++ "-" ++ b)
    · refine ⟨q, hq, ?_, ?_, ?_, ?_⟩ <;> simp [hk, updEdge]
    · refine ⟨q, hq, ?_, ?_, ?_, ?_⟩ <;> simp [hk]
  · rw [if_neg h1] at hp
    by_cases h2 : hasKeyM es (b ++ "-" ++ m)
    · rw [if_pos h2] at hp
      rcases List.mem_map.mp hp with ⟨q, hq, rfl⟩
      left
      by_cases hk : q.1 = (b ++ "-" ++ m)
      · refine ⟨q, hq, ?_, ?_, ?_, ?_⟩ <;> simp [hk, updEdge]
      · refine ⟨q, hq, ?_, ?_, ?_, ?_⟩ <;> simp [hk]
    · rw [if_neg h2] at hp
      rcases List.mem_append.mp hp with hin | hnew
      · exact Or.inl ⟨p, hin, rfl, rfl, rfl, rfl⟩
      · rcases List.mem_singleton.mp hnew with rfl
        exact Or.inr ⟨rfl, rfl, rfl, rfl⟩

/-!
### C10 - the bidirectional flag is never set
-/

theorem edges_bidir_false_fold (l : List (String × MappingRow)) :
    ∀ es, (∀ p ∈ es, p.2.bidirectional = false) →
      ∀ p ∈ l.foldl (fun es x => edgeF es x.1 x.2) es, p.2.bidirectional = false := by
  induction l with
  | nil => intro es h; exact h
  | cons x t ih =>
    intro es h
    apply ih
    intro p hp
    simp only [edgeF] at hp
    by_cases h1 : x.2.bParty = ""
    · rw [if_pos h1] at hp; exact h p hp
    · rw [if_neg h1] at hp
      by_cases h2 : x.2.bParty = x.1
      · rw [if_pos h2] at hp; exact h p hp
      · rw [if_neg h2] at hp
        rcases edgeStep_shape _ _ _ _ _ _ _ p hp with ⟨q, hq, _, _, _, hb⟩ | ⟨_, _, _, hb⟩
        · rw [hb]; exact h q hq
        · exact hb

/-- Every edge of a built network has `bidirectional = false`. -/
theorem buildNetwork_edges_bidir_false (cdrs : List ProcessedCDR) :
    ∀ p ∈ (buildNetworkFromCDRs cdrs).edges, p.2.bidirectional = false := by
  intro p hp
  rw [buildNetwork_edges_eq] at hp
  exact edges_bidir_false_fold (flatRecords cdrs) []
    (fun q hq => absurd hq (List.not_mem_nil q)) p hp

/-- C10: the bidirectional flag is initialized to `false` at edge creation
and no fold, centrality or classification step ever sets it: every edge of
the built network, and every edge of the full and internal networks of a
successful analysis, carries `bidirectional = false`. -/
theorem c10_bidirectional_always_false (cdrs : List ProcessedCDR)
    (files : List (String × List RawRow)) (res : NetworkAnalysisResult) :
    (∀ p ∈ (buildNetworkFromCDRs cdrs).edges, p.2.bidirectional = false)
    ∧ (analyzeNetworkFromCDRs files = Except.ok res →
        (∀ e ∈ res.fullNetwork.edges, e.bidirectional = false) ∧
          (∀ e ∈ res.internalNetwork.edges, e.bidirectional = false)) := by
  constructor
  · exact buildNetwork_edges_bidir_false cdrs
  · intro hok
    by_cases h0 : files.length = 0
    · simp only [analyzeNetworkFromCDRs, h0, if_true] at hok
      cases hok
    · by_cases h1 : (buildNetworkFromCDRs
          (files.map (fun f => processCDRData f.2 f.1))).nodes.length = 0
      · simp only [analyzeNetworkFromCDRs, h0, h1, if_true, if_false] at hok
        cases hok
      · simp only [analyzeNetworkFromCDRs, h0, h1, if_true, if_false] at hok
        have hres := Except.ok.inj hok
        subst hres
        constructor
        · intro e he
          rcases List.mem_map.mp he with ⟨p, hp, rfl⟩
          exact buildNetwork_edges_bidir_false _ p hp
        · intro e he
          rcases List.mem_map.mp he with ⟨p, hp, rfl⟩
          exact buildNetwork_edges_bidir_false _ p (List.mem_filter.mp hp).1

/-- Fallback edge value for `Option.getD` in closed statements. -/
def defaultEdge : NetworkEdge := newEdge "none" "other" 0 "" "" 12

/-- A concrete raw VODAFONE-shaped file: 12 header rows, one data row. -/
def wRows : List RawRow :=
  (List.replicate 12 ["h"]) ++
    [["9", "OUT", "t", "888", "l", "l2", "2024-01-02", "10:00", "30", "b",
      "c1", "lb", "c2", "s", "v", "i", "j", "cf", "r", "m"]]

def wFiles : List (String × List RawRow) := [("f.csv", wRows)]

/-- The analysis result of the concrete file (the error arm is unreachable
and filled with an empty result). -/
def wRes : NetworkAnalysisResult :=
  match analyzeNetworkFromCDRs wFiles with
  | Except.ok r => r
  | Except.error _ =>
    { internalNetwork := { nodes := [], edges := [], statistics := generateNetworkStatistics [] [] }
    , fullNetwork := { nodes := [], edges := [], statistics := generateNetworkStatistics [] [] }
    , commonContacts := [], suspiciousPatterns := [] }

/-- Witness for C10 at concrete inputs: a concrete built edge and a concrete
edge of a successful end-to-end analysis. -/
theorem c10_bidirectional_always_false_witness :
    ((buildNetworkFromCDRs
        [sampleCdr "111" [sampleRow "222" "2024-01-01" "10:00" 5 "IN"]]).edges.getD 0
      ("", defaultEdge)).2.bidirectional = false
    ∧ (wRes.fullNetwork.edges.getD 0 defaultEdge).bidirectional = false := by
  refine ⟨(c10_bidirectional_always_false
      [sampleCdr "111" [sampleRow "222" "2024-01-01" "10:00" 5 "IN"]] wFiles wRes).1 _
      (by decide),
    ((c10_bidirectional_always_false
        [sampleCdr "111" [sampleRow "222" "2024-01-01" "10:00" 5 "IN"]] wFiles wRes).2
      rfl).1 _ (by decide)⟩

/-!
### Node-fold projection and edge-endpoint soundness (for C3)
-/

/-- The node-map effect of folding one record (the `nodes` component of
`processRecord`). -/
def nodeF (nodes : List (String × NetworkNode)) (msisdn : String) (r : MappingRow) :
    List (String × NetworkNode) :=
  if r.bParty = "" then nodes
  else if r.bParty = msisdn then nodes
  else
    let nodes1 := updateM nodes msisdn
      (updCdrNode r.duration r.callType (bnHour (jsOrS r.time "12:00"))
        r.imei r.imsi r.firstCellId)
    let nodes2 := if hasKeyM nodes1 r.bParty then nodes1
      else nodes1 ++ [(r.bParty, initExternalNode r.bParty)]
    updateM nodes2 r.bParty (updBPartyNode r.duration)

theorem processRecord_nodes (msisdn : String) (st : RecAcc) (r : MappingRow) :
    (processRecord msisdn st r).nodes = nodeF st.nodes msisdn r := by
  unfold processRecord nodeF
  by_cases h1 : r.bParty = ""
  · simp [h1]
  · by_cases h2 : r.bParty = msisdn
    · simp [h1, h2]
    · simp [h1, h2]

theorem foldl_processRecord_nodes (msisdn : String) (l : List MappingRow) :
    ∀ st : RecAcc, (l.foldl (processRecord msisdn) st).nodes
      = l.foldl (fun ns r => nodeF ns msisdn r) st.nodes := by
  induction l with
  | nil => intro st; rfl
  | cons r t ih =>
    intro st
    simp only [List.foldl_cons]
    rw [ih, processRecord_nodes]

theorem hasKeyM_mem_keys {α : Type} {m : List (String × α)} {k : String}
    (h : hasKeyM m k = true) : k ∈ m.map Prod.fst := by
  rcases hasKeyM_true_lookupM_some h with ⟨v, hv⟩
  exact List.mem_map.mpr ⟨(k, v), lookupM_mem hv, rfl⟩

theorem keys_nodeF_mono (nodes : List (String × NetworkNode)) (msisdn : String)
    (r : MappingRow) {k : String} (hk : k ∈ nodes.map Prod.fst) :
    k ∈ (nodeF nodes msisdn r).map Prod.fst := by
  simp only [nodeF]
  by_cases h1 : r.bParty = ""
  · simpa [h1] using hk
  · by_cases h2 : r.bParty = msisdn
    · simpa [h1, h2] using hk
    · simp only [h1, h2, if_false]
      rw [keys_updateM]
      by_cases h3 : hasKeyM (updateM nodes msisdn
          (updCdrNode r.duration r.callType (bnHour (jsOrS r.time "12:00"))
            r.imei r.imsi r.firstCellId)) r.bParty
      · simpa [h3, keys_updateM] using hk
      · simp only [h3, Bool.false_eq_true, if_false, List.map_append, keys_updateM]
        exact List.mem_append_left _ (by simpa [keys_updateM] using hk)

theorem bParty_mem_keys_nodeF (nodes : List (String × NetworkNode)) (msisdn : String)
    (r : MappingRow) (h1 : ¬(r.bParty = "")) (h2 : ¬(r.bParty = msisdn)) :
    r.bParty ∈ (nodeF nodes msisdn r).map Prod.fst := by
  simp only [nodeF, h1, h2, if_false]
  rw [keys_updateM]
  by_cases h3 : hasKeyM (updateM nodes msisdn
      (updCdrNode r.duration r.callType (bnHour (jsOrS r.time "12:00"))
        r.imei r.imsi r.firstCellId)) r.bParty
  · simpa [h3] using hasKeyM_mem_keys h3
  · simp [h3]

/-- Edge-endpoint soundness relative to a key set: endpoints are distinct
and both present among the node keys. -/
def edgesSound (ks : List String) (edges : List (String × NetworkEdge)) : Prop :=
  ∀ p ∈ edges, p.2.source ≠ p.2.target ∧ p.2.source ∈ ks ∧ p.2.target ∈ ks

theorem edgesSound_mono {ks ks2 : List String} {es : List (String × NetworkEdge)}
    (hsub : ∀ k ∈ ks, k ∈ ks2) (h : edgesSound ks es) : edgesSound ks2 es := by
  intro p hp
  rcases h p hp with ⟨hne, hsrc, htgt⟩
  exact ⟨hne, hsub _ hsrc, hsub _ htgt⟩

theorem edgesSound_step (msisdn : String) (r : MappingRow)
    (nodes : List (String × NetworkNode)) (es : List (String × NetworkEdge))
    (hm : msisdn ∈ nodes.map Prod.fst) (hs : edgesSound (nodes.map Prod.fst) es) :
    edgesSound ((nodeF nodes msisdn r).map Prod.fst) (edgeF es msisdn r) := by
  have hmono : ∀ k ∈ nodes.map Prod.fst, k ∈ (nodeF nodes msisdn r).map Prod.fst :=
    fun k hk => keys_nodeF_mono nodes msisdn r hk
  simp only [edgeF]
  by_cases h1 : r.bParty = ""
  · simpa [h1, nodeF] using edgesSound_mono hmono hs
  · by_cases h2 : r.bParty = msisdn
    · simpa [h1, h2, nodeF] using edgesSound_mono hmono hs
    · simp only [h1, h2, if_false]
      intro p hp
      rcases edgeStep_shape _ _ _ _ _ _ _ p hp with
        ⟨q, hq, _, hsrc, htgt, _⟩ | ⟨_, hsrc, htgt, _⟩
      · rcases hs q hq with ⟨hne, hqs, hqt⟩
        rw [hsrc, htgt]
        exact ⟨hne, hmono _ hqs, hmono _ hqt⟩
      · rw [hsrc, htgt]
        exact ⟨fun hh => h2 hh.symm, hmono _ hm,
          bParty_mem_keys_nodeF nodes msisdn r h1 h2⟩

theorem edgesSound_fold_records (l : List MappingRow) (msisdn : String) :
    ∀ (nodes : List (String × NetworkNode)) (es : List (String × NetworkEdge)),
      msisdn ∈ nodes.map Prod.fst → edgesSound (nodes.map Prod.fst) es →
      msisdn ∈ ((l.foldl (fun ns r => nodeF ns msisdn r) nodes).map Prod.fst) ∧
        edgesSound ((l.foldl (fun ns r => nodeF ns msisdn r) nodes).map Prod.fst)
          (l.foldl (fun es r => edgeF es msisdn r) es) := by
  induction l with
  | nil => intro nodes es hm hs; exact ⟨hm, hs⟩
  | cons r t ih =>
    intro nodes es hm hs
    simp only [List.foldl_cons]
    exact ih (nodeF nodes msisdn r) (edgeF es msisdn r)
      (keys_nodeF_mono nodes msisdn r hm) (edgesSound_step msisdn r nodes es hm hs)

theorem processCdrFile_sound (st : NetState) (cdr : ProcessedCDR)
    (hs : edgesSound (st.nodes.map Prod.fst) st.edges) :
    edgesSound ((processCdrFile st cdr).nodes.map Prod.fst) (processCdrFile st cdr).edges := by
  have hn0 : cdr.msisdn ∈ (if hasKeyM st.nodes cdr.msisdn then st.nodes
      else st.nodes ++ [(cdr.msisdn, initCdrNode cdr.msisdn cdr.provider)]).map Prod.fst := by
    by_cases h : hasKeyM st.nodes cdr.msisdn
    · simpa [h] using hasKeyM_mem_keys h
    · simp [h]
  have hmono0 : ∀ k ∈ st.nodes.map Prod.fst,
      k ∈ (if hasKeyM st.nodes cdr.msisdn then st.nodes
        else st.nodes ++ [(cdr.msisdn, initCdrNode cdr.msisdn cdr.provider)]).map Prod.fst := by
    intro k hk
    by_cases h : hasKeyM st.nodes cdr.msisdn
    · simpa [h] using hk
    · simp only [h, Bool.false_eq_true, if_false, List.map_append]
      exact List.mem_append_left _ hk
  have hsound := edgesSound_fold_records cdr.mapping cdr.msisdn _ st.edges hn0
    (edgesSound_mono hmono0 hs)
  simp only [processCdrFile]
  rw [keys_updateM, foldl_processRecord_nodes, foldl_processRecord_edges]
  exact hsound.2

theorem buildNetwork_fold_sound (cdrs : List ProcessedCDR) :
    ∀ st : NetState, edgesSound (st.nodes.map Prod.fst) st.edges →
      edgesSound (((cdrs.foldl processCdrFile st).nodes).map Prod.fst)
        (cdrs.foldl processCdrFile st).edges := by
  induction cdrs with
  | nil => intro st h; exact h
  | cons c t ih =>
    intro st h
    simp only [List.foldl_cons]
    exact ih _ (processCdrFile_sound st c h)

/-- Every edge of a built network has distinct endpoints, both present among
the network's node keys. -/
theorem buildNetwork_sound (cdrs : List ProcessedCDR) :
    edgesSound (((buildNetworkFromCDRs cdrs).nodes).map Prod.fst)
      (buildNetworkFromCDRs cdrs).edges := by
  unfold buildNetworkFromCDRs
  exact buildNetwork_fold_sound cdrs { nodes := [], edges := [], contacts := [] }
    (fun p hp => absurd hp (List.not_mem_nil p))

theorem two_mem_le_length {α : Type} {l : List α} {a b : α}
    (ha : a ∈ l) (hb : b ∈ l) (hab : a ≠ b) : 2 ≤ l.length := by
  cases l with
  | nil => cases ha
  | cons x t =>
    cases t with
    | nil =>
      rcases List.mem_singleton.mp ha with rfl
      rcases List.mem_singleton.mp hb with rfl
      exact absurd rfl hab
    | cons y u => simp only [List.length_cons]; omega

/-!
### C3 - centrality formulas
-/

/-- C3 counterexample: in the two-file path network 111-222, 222-333 the
computed eigenvector of node "111" is 1 - the sum of the weights of its own
incident edges - while the claimed "sum of each neighbor's weight-weighted
degree" is 2 (its neighbor "222" touches two edges of weight 1). -/
theorem c3_eigenvector_counterexample :
    ((lookupM (calculateCentralities
        (buildNetworkFromCDRs
          [sampleCdr "111" [sampleRow "222" "2024-01-01" "10:00" 5 "IN"],
           sampleCdr "222" [sampleRow "333" "2024-01-01" "11:00" 7 "OUT"]]).nodes
        (buildNetworkFromCDRs
          [sampleCdr "111" [sampleRow "222" "2024-01-01" "10:00" 5 "IN"],
           sampleCdr "222" [sampleRow "333" "2024-01-01" "11:00" 7 "OUT"]]).edges)
      "111").getD defaultNode).centrality.eigenvector = 1
    ∧ specNeighborEigen
        (buildNetworkFromCDRs
          [sampleCdr "111" [sampleRow "222" "2024-01-01" "10:00" 5 "IN"],
           sampleCdr "222" [sampleRow "333" "2024-01-01" "11:00" 7 "OUT"]]).edges
        "111" = 2
    ∧ (1 : Rat) ≠ 2 := by
  exact ⟨by decide, by decide, by decide⟩

/-- C3 (amended): after the centrality pass over a built network, every
node's degree is the count of edges touching it, betweenness is degree
times one half, closeness is degree divided by (totalNodes - 1) (the
`Math.max` guard in the code only differs on a one-node network, where the
degree is necessarily zero by edge-endpoint soundness and both sides are
zero), and eigenvector is the sum of the weights of the node's own incident
edges - not of the neighbors' weighted degrees. -/
theorem c3_centrality_formulas (cdrs : List ProcessedCDR) :
    ∀ p ∈ calculateCentralities (buildNetworkFromCDRs cdrs).nodes
        (buildNetworkFromCDRs cdrs).edges,
      p.2.centrality.degree
          = ((connectionsOf (buildNetworkFromCDRs cdrs).edges p.2.id).length : Rat)
      ∧ p.2.centrality.betweenness = p.2.centrality.degree * (1/2)
      ∧ p.2.centrality.closeness
          = p.2.centrality.degree / (((buildNetworkFromCDRs cdrs).nodes.length : Rat) - 1)
      ∧ p.2.centrality.eigenvector
          = ((connectionsOf (buildNetworkFromCDRs cdrs).edges p.2.id).map
              (fun q => (q.2.weight : Rat))).sum := by
  intro p hp
  rcases List.mem_map.mp hp with ⟨q, hq, rfl⟩
  refine ⟨rfl, rfl, ?_, rfl⟩
  show ((connectionsOf (buildNetworkFromCDRs cdrs).edges q.2.id).length : Rat)
      / ((max 1 ((buildNetworkFromCDRs cdrs).nodes.length - 1) : Nat) : Rat)
    = ((connectionsOf (buildNetworkFromCDRs cdrs).edges q.2.id).length : Rat)
      / (((buildNetworkFromCDRs cdrs).nodes.length : Rat) - 1)
  by_cases hn : 2 ≤ (buildNetworkFromCDRs cdrs).nodes.length
  · have hmax : (max 1 ((buildNetworkFromCDRs cdrs).nodes.length - 1))
        = (buildNetworkFromCDRs cdrs).nodes.length - 1 := by omega
    rw [hmax, Nat.cast_sub (by omega), Nat.cast_one]
  · have hq1 : (buildNetworkFromCDRs cdrs).nodes.length = 1 := by
      have hpos : 0 < (buildNetworkFromCDRs cdrs).nodes.length :=
        List.length_pos.mpr (List.ne_nil_of_mem hq)
      omega
    have hconns : connectionsOf (buildNetworkFromCDRs cdrs).edges q.2.id = [] := by
      by_contra hne
      rcases List.exists_mem_of_ne_nil _ hne with ⟨e, he⟩
      have hee := List.mem_filter.mp he
      rcases buildNetwork_sound cdrs e hee.1 with ⟨hne2, hsrc, htgt⟩
      have h2 := two_mem_le_length hsrc htgt hne2
      rw [List.length_map] at h2
      omega
    rw [hconns, hq1]
    simp

/-- Witness for C3 (amended): the degree clause at a concrete one-edge
network. -/
theorem c3_centrality_formulas_witness :
    (("111", (lookupM (calculateCentralities
        (buildNetworkFromCDRs
          [sampleCdr "111" [sampleRow "222" "2024-01-01" "10:00" 5 "IN"]]).nodes
        (buildNetworkFromCDRs
          [sampleCdr "111" [sampleRow "222" "2024-01-01" "10:00" 5 "IN"]]).edges)
      "111").getD defaultNode) : String × NetworkNode).2.centrality.degree
      = ((connectionsOf
          (buildNetworkFromCDRs
            [sampleCdr "111" [sampleRow "222" "2024-01-01" "10:00" 5 "IN"]]).edges
          (("111", (lookupM (calculateCentralities
              (buildNetworkFromCDRs
                [sampleCdr "111" [sampleRow "222" "2024-01-01" "10:00" 5 "IN"]]).nodes
              (buildNetworkFromCDRs
                [sampleCdr "111" [sampleRow "222" "2024-01-01" "10:00" 5 "IN"]]).edges)
            "111").getD defaultNode) : String × NetworkNode).2.id).length : Rat) :=
  (c3_centrality_formulas [sampleCdr "111" [sampleRow "222" "2024-01-01" "10:00" 5 "IN"]]
    _ (by decide)).1

/-!
### C4 - edge identity and call-count aggregation
-/

theorem data_append (s t : String) : (s ++ t).data = s.data ++ t.data := by
  cases s
  cases t
  rfl

theorem string_data_inj {s t : String} (h : s.data = t.data) : s = t := by
  cases s
  cases t
  exact congrArg String.mk h

theorem append_cons_inj {α : Type} {c : α} :
    ∀ {x z y w : List α}, c ∉ x → c ∉ z → x ++ c :: y = z ++ c :: w →
      x = z ∧ y = w := by
  intro x
  induction x with
  | nil =>
    intro z y w _ hz h
    cases z with
    | nil => simpa using h
    | cons a t =>
      rw [List.nil_append, List.cons_append] at h
      injection h with h1 h2
      exact absurd (h1 ▸ List.mem_cons_self a t) hz
  | cons a t ih =>
    intro z y w hx hz h
    cases z with
    | nil =>
      rw [List.nil_append, List.cons_append] at h
      injection h with h1 h2
      exact absurd (h1 ▸ List.mem_cons_self a t) hx
    | cons bb u =>
      rw [List.cons_append, List.cons_append] at h
      injection h with h1 h2
      subst h1
      rcases ih (fun hc => hx (List.mem_cons_of_mem _ hc))
        (fun hc => hz (List.mem_cons_of_mem _ hc)) h2 with ⟨rfl, rfl⟩
      exact ⟨rfl, rfl⟩

/-- A string with no hyphen, i.e. a well-formed phone-number key part. -/
def noHyph (s : String) : Prop := '-' ∉ s.data

theorem dashKey_inj {a b c d : String} (ha : noHyph a) (hc : noHyph c)
    (h : a ++ "-" ++ b = c ++ "-" ++ d) : a = c ∧ b = d := by
  have hd : (a ++ "-" ++ b).data = (c ++ "-" ++ d).data := by rw [h]
  rw [data_append, data_append, data_append, data_append] at hd
  have hlist : a.data ++ '-' :: b.data = c.data ++ '-' :: d.data := by
    simpa [List.append_assoc] using hd
  rcases append_cons_inj ha hc hlist with ⟨h1, h2⟩
  exact ⟨string_data_inj h1, string_data_inj h2⟩

/-- The record (account, row) belongs to the unordered pair A-B: a valid
counterparty and the pair in either orientation. -/
def pairRecordB (A B : String) (x : String × MappingRow) : Bool :=
  (x.2.bParty != "") && (x.2.bParty != x.1) &&
    ((x.1 == A && x.2.bParty == B) || (x.1 == B && x.2.bParty == A))

/-- The number of records folded into the unordered pair A-B. -/
def pairCount (cdrs : List ProcessedCDR) (A B : String) : Nat :=
  (flatRecords cdrs).countP (pairRecordB A B)

/-- The edge-map entries keyed by either orientation of the pair A-B. -/
def pairEdges (edges : List (String × NetworkEdge)) (A B : String) :
    List (String × NetworkEdge) :=
  edges.filter (fun p => p.1 == A ++ "-" ++ B || p.1 == B ++ "-" ++ A)

theorem pairEdges_comm (edges : List (String × NetworkEdge)) (A B : String) :
    pairEdges edges A B = pairEdges edges B A := by
  unfold pairEdges
  apply List.filter_congr
  intro p _
  exact Bool.or_comm _ _

theorem countP_pairRecordB_comm (l : List (String × MappingRow)) (A B : String) :
    l.countP (pairRecordB A B) = l.countP (pairRecordB B A) := by
  apply List.countP_congr
  intro x _
  unfold pairRecordB
  rw [Bool.or_comm]

theorem mapIdOn {α : Type} {g : α → α} :
    ∀ {l : List α}, (∀ a ∈ l, g a = a) → l.map g = l := by
  intro l
  induction l with
  | nil => intro _; rfl
  | cons a t ih =>
    intro h
    rw [List.map_cons, h a (List.mem_cons_self a t),
      ih (fun x hx => h x (List.mem_cons_of_mem _ hx))]

theorem pairEdges_updateM (es : List (String × NetworkEdge)) (k A B : String)
    (f : NetworkEdge → NetworkEdge) :
    pairEdges (updateM es k f) A B
      = (pairEdges es A B).map (fun p => if p.1 == k then (p.1, f p.2) else p) := by
  unfold pairEdges updateM
  rw [List.filter_map]
  congr 1
  apply List.filter_congr
  intro p _
  by_cases h : p.1 = k <;> simp [h]

theorem mem_keys_hasKeyM {α : Type} {es : List (String × α)} {k : String}
    (h : k ∈ es.map Prod.fst) : hasKeyM es k = true := by
  rcases List.mem_map.mp h with ⟨p, hp, rfl⟩
  unfold hasKeyM
  rw [List.find?_isSome]
  exact ⟨p, hp, by simp⟩

theorem hasKeyM_false_not_mem {α : Type} {es : List (String × α)} {k : String}
    (h : hasKeyM es k = false) : ∀ p ∈ es, p.1 ≠ k := by
  intro p hp hk
  have : hasKeyM es k = true := mem_keys_hasKeyM (List.mem_map.mpr ⟨p, hp, hk⟩)
  simp [this] at h

theorem hasKeyM_true_exists {α : Type} {es : List (String × α)} {k : String}
    (h : hasKeyM es k = true) : ∃ v, (k, v) ∈ es := by
  rcases hasKeyM_true_lookupM_some h with ⟨v, hv⟩
  exact ⟨v, lookupM_mem hv⟩

/-- The per-entry shape invariant of the edge map: the key records the
orientation, both endpoints are hyphen-free and distinct. -/
def goodEdges (es : List (String × NetworkEdge)) : Prop :=
  ∀ p ∈ es, p.1 = p.2.source ++ "-" ++ p.2.target ∧ noHyph p.2.source ∧
    noHyph p.2.target ∧ p.2.source ≠ p.2.target

theorem goodEdges_edgeF {es : List (String × NetworkEdge)} {m : String}
    {r : MappingRow} (hg : goodEdges es) (hm : noHyph m) (hb : noHyph r.bParty) :
    goodEdges (edgeF es m r) := by
  simp only [edgeF]
  by_cases h1 : r.bParty = ""
  · simpa [h1] using hg
  · by_cases h2 : r.bParty = m
    · simpa [h1, h2] using hg
    · simp only [h1, h2, if_false]
      intro p hp
      rcases edgeStep_shape _ _ _ _ _ _ _ p hp with
        ⟨q, hq, hkey, hsrc, htgt, _⟩ | ⟨hkey, hsrc, htgt, _⟩
      · rcases hg q hq with ⟨hqk, hqs, hqt, hqne⟩
        rw [hkey, hsrc, htgt, hqk]
        exact ⟨rfl, hqs, hqt, hqne⟩
      · rw [hkey, hsrc, htgt]
        exact ⟨rfl, hm, hb, fun hh => h2 hh.symm⟩

theorem edges_pair_inv : ∀ l : List (String × MappingRow),
    (∀ x ∈ l, noHyph x.1 ∧ noHyph x.2.bParty) →
    goodEdges (l.foldl (fun es x => edgeF es x.1 x.2) [])
    ∧ ∀ A B, A ≠ B → noHyph A → noHyph B →
        ((pairEdges (l.foldl (fun es x => edgeF es x.1 x.2) []) A B).length
            = (if l.countP (pairRecordB A B) = 0 then 0 else 1))
        ∧ ∀ p ∈ pairEdges (l.foldl (fun es x => edgeF es x.1 x.2) []) A B,
            p.2.callCount = l.countP (pairRecordB A B) := by
  intro l
  induction l using List.reverseRecOn with
  | nil =>
    intro _
    refine ⟨fun p hp => absurd hp (List.not_mem_nil p), fun A B _ _ _ => ⟨?_, ?_⟩⟩
    · simp [pairEdges]
    · intro p hp
      simp [pairEdges] at hp
  | append_singleton l x ih =>
    intro hl
    have hl2 : ∀ y ∈ l, noHyph y.1 ∧ noHyph y.2.bParty :=
      fun y hy => hl y (List.mem_append_left _ hy)
    have hx : noHyph x.1 ∧ noHyph x.2.bParty :=
      hl x (List.mem_append_right _ (List.mem_singleton_self x))
    obtain ⟨ihg, ihp⟩ := ih hl2
    simp only [List.foldl_append, List.foldl_cons, List.foldl_nil,
      List.countP_append, List.countP_cons, List.countP_nil, Nat.zero_add]
    by_cases hv1 : x.2.bParty = ""
    · have hrec : ∀ A B, pairRecordB A B x = false := by
        intro A B
        unfold pairRecordB
        simp [hv1]
      have hEq : edgeF (List.foldl (fun es x => edgeF es x.1 x.2) [] l) x.1 x.2
          = List.foldl (fun es x => edgeF es x.1 x.2) [] l := by
        simp [edgeF, hv1]
      refine ⟨by rw [hEq]; exact ihg, ?_⟩
      intro A B hAB hA hB
      obtain ⟨ih1, ih2⟩ := ihp A B hAB hA hB
      refine ⟨?_, ?_⟩
      · rw [hrec A B]
        simp only [Bool.false_eq_true, if_false, Nat.add_zero]
        rw [hEq]
        exact ih1
      · intro p hp
        rw [hrec]
        simp only [Bool.false_eq_true, if_false, Nat.add_zero]
        rw [hEq] at hp
        exact ih2 p hp
    · by_cases hv2 : x.2.bParty = x.1
      · have hrec : ∀ A B, pairRecordB A B x = false := by
          intro A B
          unfold pairRecordB
          simp [hv2]
        have hEq : edgeF (List.foldl (fun es x => edgeF es x.1 x.2) [] l) x.1 x.2
            = List.foldl (fun es x => edgeF es x.1 x.2) [] l := by
          simp [edgeF, hv1, hv2]
        refine ⟨by rw [hEq]; exact ihg, ?_⟩
        intro A B hAB hA hB
        obtain ⟨ih1, ih2⟩ := ihp A B hAB hA hB
        refine ⟨?_, ?_⟩
        · rw [hrec A B]
          simp only [Bool.false_eq_true, if_false, Nat.add_zero]
          rw [hEq]
          exact ih1
        · intro p hp
          rw [hrec]
          simp only [Bool.false_eq_true, if_false, Nat.add_zero]
          rw [hEq] at hp
          exact ih2 p hp
      · -- the valid record case
        have hne_mb : x.1 ≠ x.2.bParty := fun h => hv2 h.symm
        have hrecMB : pairRecordB x.1 x.2.bParty x = true := by
          unfold pairRecordB
          simp [hv1, hv2]
        have hrecBM : pairRecordB x.2.bParty x.1 x = true := by
          unfold pairRecordB
          simp [hv1, hv2]
        have hnotrec : ∀ A B,
            ¬((A = x.1 ∧ B = x.2.bParty) ∨ (A = x.2.bParty ∧ B = x.1)) →
            pairRecordB A B x = false := by
          intro A B h
          cases hb : pairRecordB A B x
          · rfl
          · exfalso
            unfold pairRecordB at hb
            simp only [Bool.and_eq_true, Bool.or_eq_true, beq_iff_eq,
              bne_iff_ne] at hb
            rcases hb.2 with ⟨h1, h2⟩ | ⟨h1, h2⟩
            · exact h (Or.inl ⟨h1.symm, h2.symm⟩)
            · exact h (Or.inr ⟨h2.symm, h1.symm⟩)
        refine ⟨goodEdges_edgeF ihg hx.1 hx.2, ?_⟩
        intro A B hAB hA hB
        obtain ⟨ih1, ih2⟩ := ihp A B hAB hA hB
        obtain ⟨ih1c, ih2c⟩ := ihp x.1 x.2.bParty hne_mb hx.1 hx.2
        have hstepEq : edgeF (l.foldl (fun es x => edgeF es x.1 x.2) []) x.1 x.2
            = (if hasKeyM (l.foldl (fun es x => edgeF es x.1 x.2) [])
                  (x.1 ++ "-" ++ x.2.bParty) then
                updateM (l.foldl (fun es x => edgeF es x.1 x.2) [])
                  (x.1 ++ "-" ++ x.2.bParty)
                  (updEdge x.2.duration (jsOrS x.2.date "2024-01-01")
                    (jsOrS x.2.time "12:00") (bnHour (jsOrS x.2.time "12:00")))
              else if hasKeyM (l.foldl (fun es x => edgeF es x.1 x.2) [])
                  (x.2.bParty ++ "-" ++ x.1) then
                updateM (l.foldl (fun es x => edgeF es x.1 x.2) [])
                  (x.2.bParty ++ "-" ++ x.1)
                  (updEdge x.2.duration (jsOrS x.2.date "2024-01-01")
                    (jsOrS x.2.time "12:00") (bnHour (jsOrS x.2.time "12:00")))
              else (l.foldl (fun es x => edgeF es x.1 x.2) []) ++
                  [(x.1 ++ "-" ++ x.2.bParty,
                    newEdge x.1 x.2.bParty x.2.duration (jsOrS x.2.date "2024-01-01")
                      (jsOrS x.2.time "12:00") (bnHour (jsOrS x.2.time "12:00")))]) := by
          simp [edgeF, edgeStep, hv1, hv2]
        rw [hstepEq]
        cases hk1 : hasKeyM (l.foldl (fun es x => edgeF es x.1 x.2) [])
            (x.1 ++ "-" ++ x.2.bParty) with
        | true =>
          rw [if_pos rfl]
          obtain ⟨v0, hv0⟩ := hasKeyM_true_exists hk1
          have hm0 : (x.1 ++ "-" ++ x.2.bParty, v0)
              ∈ pairEdges (l.foldl (fun es x => edgeF es x.1 x.2) []) x.1 x.2.bParty :=
            List.mem_filter.mpr ⟨hv0, by simp⟩
          have hlen1 : (pairEdges (l.foldl (fun es x => edgeF es x.1 x.2) [])
              x.1 x.2.bParty).length = 1 := by
            have hpos : 0 < (pairEdges (l.foldl (fun es x => edgeF es x.1 x.2) [])
                x.1 x.2.bParty).length :=
              List.length_pos.mpr (List.ne_nil_of_mem hm0)
            rw [ih1c] at hpos ⊢
            by_cases h0 : l.countP (pairRecordB x.1 x.2.bParty) = 0
            · rw [if_pos h0] at hpos
              exact absurd hpos (by simp)
            · rw [if_neg h0]
          obtain ⟨a, ha⟩ := List.length_eq_one.mp hlen1
          have haq : a = (x.1 ++ "-" ++ x.2.bParty, v0) := by
            rw [ha] at hm0
            exact (List.mem_singleton.mp hm0).symm
          have hcLen : (pairEdges (updateM (l.foldl (fun es x => edgeF es x.1 x.2) [])
              (x.1 ++ "-" ++ x.2.bParty)
              (updEdge x.2.duration (jsOrS x.2.date "2024-01-01") (jsOrS x.2.time "12:00")
                (bnHour (jsOrS x.2.time "12:00")))) x.1 x.2.bParty).length = 1 := by
            rw [pairEdges_updateM, ha]
            simp
          have hcCC : ∀ p ∈ pairEdges (updateM (l.foldl (fun es x => edgeF es x.1 x.2) [])
              (x.1 ++ "-" ++ x.2.bParty)
              (updEdge x.2.duration (jsOrS x.2.date "2024-01-01") (jsOrS x.2.time "12:00")
                (bnHour (jsOrS x.2.time "12:00")))) x.1 x.2.bParty,
              p.2.callCount = l.countP (pairRecordB x.1 x.2.bParty) + 1 := by
            intro p hp
            rw [pairEdges_updateM, ha, haq] at hp
            rw [show List.map (fun p =>
                if p.1 == (x.1 ++ "-" ++ x.2.bParty)
                then (p.1, updEdge x.2.duration (jsOrS x.2.date "2024-01-01")
                  (jsOrS x.2.time "12:00") (bnHour (jsOrS x.2.time "12:00")) p.2)
                else p) [(x.1 ++ "-" ++ x.2.bParty, v0)]
                = [(x.1 ++ "-" ++ x.2.bParty,
                    updEdge x.2.duration (jsOrS x.2.date "2024-01-01")
                      (jsOrS x.2.time "12:00") (bnHour (jsOrS x.2.time "12:00")) v0)]
              from by simp] at hp
            rcases List.mem_singleton.mp hp with rfl
            have hvcc : v0.callCount = l.countP (pairRecordB x.1 x.2.bParty) :=
              ih2c _ hm0
            show (updEdge x.2.duration (jsOrS x.2.date "2024-01-01")
                (jsOrS x.2.time "12:00") (bnHour (jsOrS x.2.time "12:00")) v0).callCount
              = l.countP (pairRecordB x.1 x.2.bParty) + 1
            rw [show (updEdge x.2.duration (jsOrS x.2.date "2024-01-01")
              (jsOrS x.2.time "12:00") (bnHour (jsOrS x.2.time "12:00")) v0).callCount
                = v0.callCount + 1 from rfl, hvcc]
          by_cases hAB2 : (A = x.1 ∧ B = x.2.bParty) ∨ (A = x.2.bParty ∧ B = x.1)
          · rcases hAB2 with ⟨rfl, rfl⟩ | ⟨rfl, rfl⟩
            · rw [hrecMB]
              refine ⟨by rw [hcLen]; simp, ?_⟩
              intro p hp
              rw [hcCC p hp]
              simp
            · rw [hrecBM]
              rw [pairEdges_comm, countP_pairRecordB_comm]
              refine ⟨by rw [hcLen]; simp, ?_⟩
              intro p hp
              rw [hcCC p hp]
              simp
          · have hid : ∀ p ∈ pairEdges (l.foldl (fun es x => edgeF es x.1 x.2) []) A B,
                (fun p => if p.1 == (x.1 ++ "-" ++ x.2.bParty)
                  then (p.1, updEdge x.2.duration (jsOrS x.2.date "2024-01-01")
                    (jsOrS x.2.time "12:00") (bnHour (jsOrS x.2.time "12:00")) p.2)
                  else p) p = p := by
              intro p hp
              have hpk := (List.mem_filter.mp hp).2
              rw [Bool.or_eq_true] at hpk
              have hpne : p.1 ≠ x.1 ++ "-" ++ x.2.bParty := by
                intro hpe
                rcases hpk with hk | hk
                · have : A ++ "-" ++ B = x.1 ++ "-" ++ x.2.bParty := by
                    rw [← (by simpa using hk : p.1 = A ++ "-" ++ B), hpe]
                  rcases dashKey_inj hA hx.1 this with ⟨h1, h2⟩
                  exact hAB2 (Or.inl ⟨h1, h2⟩)
                · have : B ++ "-" ++ A = x.1 ++ "-" ++ x.2.bParty := by
                    rw [← (by simpa using hk : p.1 = B ++ "-" ++ A), hpe]
                  rcases dashKey_inj hB hx.1 this with ⟨h1, h2⟩
                  exact hAB2 (Or.inr ⟨h2, h1⟩)
              simp [hpne]
            rw [hnotrec A B hAB2]
            simp only [Bool.false_eq_true, if_false, Nat.add_zero]
            rw [pairEdges_updateM, mapIdOn hid]
            exact ⟨ih1, ih2⟩
        | false =>
          rw [if_neg Bool.false_ne_true]
          cases hk2 : hasKeyM (l.foldl (fun es x => edgeF es x.1 x.2) [])
              (x.2.bParty ++ "-" ++ x.1) with
          | true =>
            rw [if_pos rfl]
            obtain ⟨v0, hv0⟩ := hasKeyM_true_exists hk2
            have hm0 : (x.2.bParty ++ "-" ++ x.1, v0)
                ∈ pairEdges (l.foldl (fun es x => edgeF es x.1 x.2) []) x.1 x.2.bParty :=
              List.mem_filter.mpr ⟨hv0, by simp⟩
            have hlen1 : (pairEdges (l.foldl (fun es x => edgeF es x.1 x.2) [])
                x.1 x.2.bParty).length = 1 := by
              have hpos : 0 < (pairEdges (l.foldl (fun es x => edgeF es x.1 x.2) [])
                  x.1 x.2.bParty).length :=
                List.length_pos.mpr (List.ne_nil_of_mem hm0)
              rw [ih1c] at hpos ⊢
              by_cases h0 : l.countP (pairRecordB x.1 x.2.bParty) = 0
              · rw [if_pos h0] at hpos
                exact absurd hpos (by simp)
              · rw [if_neg h0]
            obtain ⟨a, ha⟩ := List.length_eq_one.mp hlen1
            have haq : a = (x.2.bParty ++ "-" ++ x.1, v0) := by
              rw [ha] at hm0
              exact (List.mem_singleton.mp hm0).symm
            have hcLen : (pairEdges (updateM (l.foldl (fun es x => edgeF es x.1 x.2) [])
                (x.2.bParty ++ "-" ++ x.1)
                (updEdge x.2.duration (jsOrS x.2.date "2024-01-01") (jsOrS x.2.time "12:00")
                  (bnHour (jsOrS x.2.time "12:00")))) x.1 x.2.bParty).length = 1 := by
              rw [pairEdges_updateM, ha]
              simp
            have hcCC : ∀ p ∈ pairEdges (updateM (l.foldl (fun es x => edgeF es x.1 x.2) [])
                (x.2.bParty ++ "-" ++ x.1)
                (updEdge x.2.duration (jsOrS x.2.date "2024-01-01") (jsOrS x.2.time "12:00")
                  (bnHour (jsOrS x.2.time "12:00")))) x.1 x.2.bParty,
                p.2.callCount = l.countP (pairRecordB x.1 x.2.bParty) + 1 := by
              intro p hp
              rw [pairEdges_updateM, ha, haq] at hp
              rw [show List.map (fun p =>
                  if p.1 == (x.2.bParty ++ "-" ++ x.1)
                  then (p.1, updEdge x.2.duration (jsOrS x.2.date "2024-01-01")
                    (jsOrS x.2.time "12:00") (bnHour (jsOrS x.2.time "12:00")) p.2)
                  else p) [(x.2.bParty ++ "-" ++ x.1, v0)]
                  = [(x.2.bParty ++ "-" ++ x.1,
                      updEdge x.2.duration (jsOrS x.2.date "2024-01-01")
                        (jsOrS x.2.time "12:00") (bnHour (jsOrS x.2.time "12:00")) v0)]
                from by simp] at hp
              rcases List.mem_singleton.mp hp with rfl
              have hvcc : v0.callCount = l.countP (pairRecordB x.1 x.2.bParty) :=
                ih2c _ hm0
              show (updEdge x.2.duration (jsOrS x.2.date "2024-01-01")
                  (jsOrS x.2.time "12:00") (bnHour (jsOrS x.2.time "12:00")) v0).callCount
                = l.countP (pairRecordB x.1 x.2.bParty) + 1
              rw [show (updEdge x.2.duration (jsOrS x.2.date "2024-01-01")
                (jsOrS x.2.time "12:00") (bnHour (jsOrS x.2.time "12:00")) v0).callCount
                  = v0.callCount + 1 from rfl, hvcc]
            by_cases hAB2 : (A = x.1 ∧ B = x.2.bParty) ∨ (A = x.2.bParty ∧ B = x.1)
            · rcases hAB2 with ⟨rfl, rfl⟩ | ⟨rfl, rfl⟩
              · rw [hrecMB]
                refine ⟨by rw [hcLen]; simp, ?_⟩
                intro p hp
                rw [hcCC p hp]
                simp
              · rw [hrecBM]
                rw [pairEdges_comm, countP_pairRecordB_comm]
                refine ⟨by rw [hcLen]; simp, ?_⟩
                intro p hp
                rw [hcCC p hp]
                simp
            · have hid : ∀ p ∈ pairEdges (l.foldl (fun es x => edgeF es x.1 x.2) []) A B,
                  (fun p => if p.1 == (x.2.bParty ++ "-" ++ x.1)
                    then (p.1, updEdge x.2.duration (jsOrS x.2.date "2024-01-01")
                      (jsOrS x.2.time "12:00") (bnHour (jsOrS x.2.time "12:00")) p.2)
                    else p) p = p := by
                intro p hp
                have hpk := (List.mem_filter.mp hp).2
                rw [Bool.or_eq_true] at hpk
                have hpne : p.1 ≠ x.2.bParty ++ "-" ++ x.1 := by
                  intro hpe
                  rcases hpk with hk | hk
                  · have : A ++ "-" ++ B = x.2.bParty ++ "-" ++ x.1 := by
                      rw [← (by simpa using hk : p.1 = A ++ "-" ++ B), hpe]
                    rcases dashKey_inj hA hx.2 this with ⟨h1, h2⟩
                    exact hAB2 (Or.inr ⟨h1, h2⟩)
                  · have : B ++ "-" ++ A = x.2.bParty ++ "-" ++ x.1 := by
                      rw [← (by simpa using hk : p.1 = B ++ "-" ++ A), hpe]
                    rcases dashKey_inj hB hx.2 this with ⟨h1, h2⟩
                    exact hAB2 (Or.inl ⟨h2, h1⟩)
                simp [hpne]
              rw [hnotrec A B hAB2]
              simp only [Bool.false_eq_true, if_false, Nat.add_zero]
              rw [pairEdges_updateM, mapIdOn hid]
              exact ⟨ih1, ih2⟩
          | false =>
            rw [if_neg Bool.false_ne_true]
            have hempty : pairEdges (l.foldl (fun es x => edgeF es x.1 x.2) [])
                x.1 x.2.bParty = [] := by
              cases hpe : pairEdges (l.foldl (fun es x => edgeF es x.1 x.2) [])
                  x.1 x.2.bParty with
              | nil => rfl
              | cons p t =>
                exfalso
                have hp : p ∈ pairEdges (l.foldl (fun es x => edgeF es x.1 x.2) [])
                    x.1 x.2.bParty := by
                  rw [hpe]
                  exact List.mem_cons_self p t
                have hmem := (List.mem_filter.mp hp).1
                have hpk := (List.mem_filter.mp hp).2
                rw [Bool.or_eq_true] at hpk
                rcases hpk with hk | hk
                · have : hasKeyM (l.foldl (fun es x => edgeF es x.1 x.2) [])
                      (x.1 ++ "-" ++ x.2.bParty) = true :=
                    mem_keys_hasKeyM (List.mem_map.mpr ⟨p, hmem, by simpa using hk⟩)
                  rw [this] at hk1
                  cases hk1
                · have : hasKeyM (l.foldl (fun es x => edgeF es x.1 x.2) [])
                      (x.2.bParty ++ "-" ++ x.1) = true :=
                    mem_keys_hasKeyM (List.mem_map.mpr ⟨p, hmem, by simpa using hk⟩)
                  rw [this] at hk2
                  cases hk2
            have hc0 : l.countP (pairRecordB x.1 x.2.bParty) = 0 := by
              by_cases h0 : l.countP (pairRecordB x.1 x.2.bParty) = 0
              · exact h0
              · have := ih1c
                rw [hempty, if_neg h0] at this
                cases this
            by_cases hAB2 : (A = x.1 ∧ B = x.2.bParty) ∨ (A = x.2.bParty ∧ B = x.1)
            · have hnewMB : pairEdges ((l.foldl (fun es x => edgeF es x.1 x.2) []) ++
                  [(x.1 ++ "-" ++ x.2.bParty,
                    newEdge x.1 x.2.bParty x.2.duration (jsOrS x.2.date "2024-01-01")
                      (jsOrS x.2.time "12:00") (bnHour (jsOrS x.2.time "12:00")))])
                  x.1 x.2.bParty
                  = [(x.1 ++ "-" ++ x.2.bParty,
                      newEdge x.1 x.2.bParty x.2.duration (jsOrS x.2.date "2024-01-01")
                        (jsOrS x.2.time "12:00") (bnHour (jsOrS x.2.time "12:00")))] := by
                unfold pairEdges
                rw [List.filter_append]
                rw [show List.filter _ (l.foldl (fun es x => edgeF es x.1 x.2) [])
                    = pairEdges (l.foldl (fun es x => edgeF es x.1 x.2) [])
                      x.1 x.2.bParty from rfl, hempty]
                simp
              rcases hAB2 with ⟨rfl, rfl⟩ | ⟨rfl, rfl⟩
              · rw [hrecMB, hnewMB, hc0]
                refine ⟨by simp, ?_⟩
                intro p hp
                rcases List.mem_singleton.mp hp with rfl
                simp [newEdge]
              · rw [hrecBM, pairEdges_comm, countP_pairRecordB_comm, hnewMB, hc0]
                refine ⟨by simp, ?_⟩
                intro p hp
                rcases List.mem_singleton.mp hp with rfl
                simp [newEdge]
            · have hnewAB : pairEdges ((l.foldl (fun es x => edgeF es x.1 x.2) []) ++
                  [(x.1 ++ "-" ++ x.2.bParty,
                    newEdge x.1 x.2.bParty x.2.duration (jsOrS x.2.date "2024-01-01")
                      (jsOrS x.2.time "12:00") (bnHour (jsOrS x.2.time "12:00")))]) A B
                  = pairEdges (l.foldl (fun es x => edgeF es x.1 x.2) []) A B := by
                unfold pairEdges
                rw [List.filter_append]
                have hne1 : ¬(x.1 ++ "-" ++ x.2.bParty = A ++ "-" ++ B) := by
                  intro hh
                  rcases dashKey_inj hx.1 hA hh with ⟨h1, h2⟩
                  exact hAB2 (Or.inl ⟨h1.symm, h2.symm⟩)
                have hne2 : ¬(x.1 ++ "-" ++ x.2.bParty = B ++ "-" ++ A) := by
                  intro hh
                  rcases dashKey_inj hx.1 hB hh with ⟨h1, h2⟩
                  exact hAB2 (Or.inr ⟨h2.symm, h1.symm⟩)
                simp [hne1, hne2]
              rw [hnotrec A B hAB2, hnewAB]
              simp only [Bool.false_eq_true, if_false, Nat.add_zero]
              exact ⟨ih1, ih2⟩

/-- C4: for any two distinct hyphen-free numbers A and B appearing in
records in either order, the network builder keeps exactly one edge entry
for the unordered pair - zero when no record joins them - and that edge
holds callCount equal to the number of records whose account-counterparty
pair is A-B in either orientation; the count, hence the edge content, is
invariant under any reordering of the flattened record list. -/
theorem c4_one_edge_per_unordered_pair (cdrs : List ProcessedCDR) (A B : String)
    (hAB : A ≠ B) (hA : noHyph A) (hB : noHyph B)
    (hclean : ∀ x ∈ flatRecords cdrs, noHyph x.1 ∧ noHyph x.2.bParty) :
    ((pairEdges (buildNetworkFromCDRs cdrs).edges A B).length
        = (if pairCount cdrs A B = 0 then 0 else 1))
    ∧ (∀ p ∈ pairEdges (buildNetworkFromCDRs cdrs).edges A B,
        p.2.callCount = pairCount cdrs A B)
    ∧ ∀ cdrs2 : List ProcessedCDR, (flatRecords cdrs2).Perm (flatRecords cdrs) →
        (pairEdges (buildNetworkFromCDRs cdrs2).edges A B).length
            = (pairEdges (buildNetworkFromCDRs cdrs).edges A B).length
        ∧ ∀ p ∈ pairEdges (buildNetworkFromCDRs cdrs2).edges A B,
            p.2.callCount = pairCount cdrs A B := by
  have h1 := (edges_pair_inv (flatRecords cdrs) hclean).2 A B hAB hA hB
  refine ⟨?_, ?_, ?_⟩
  · rw [buildNetwork_edges_eq]
    exact h1.1
  · intro p hp
    rw [buildNetwork_edges_eq] at hp
    exact h1.2 p hp
  · intro cdrs2 hperm
    have hclean2 : ∀ x ∈ flatRecords cdrs2, noHyph x.1 ∧ noHyph x.2.bParty :=
      fun x hx => hclean x (hperm.mem_iff.mp hx)
    have h2 := (edges_pair_inv (flatRecords cdrs2) hclean2).2 A B hAB hA hB
    have hcnt : (flatRecords cdrs2).countP (pairRecordB A B)
        = (flatRecords cdrs).countP (pairRecordB A B) := hperm.countP_eq _
    constructor
    · rw [buildNetwork_edges_eq, buildNetwork_edges_eq, h2.1, h1.1, hcnt]
    · intro p hp
      rw [buildNetwork_edges_eq] at hp
      rw [h2.2 p hp, hcnt]
      rfl

theorem c4_one_edge_per_unordered_pair_witness :
    (pairEdges (buildNetworkFromCDRs
        [sampleCdr "111" [sampleRow "222" "2024-01-01" "10:00" 60 "OUT"],
         sampleCdr "222" [sampleRow "111" "2024-01-02" "11:00" 30 "IN"]]).edges
        "111" "222").length = 1
    ∧ ∀ p ∈ pairEdges (buildNetworkFromCDRs
        [sampleCdr "111" [sampleRow "222" "2024-01-01" "10:00" 60 "OUT"],
         sampleCdr "222" [sampleRow "111" "2024-01-02" "11:00" 30 "IN"]]).edges
        "111" "222", p.2.callCount = 2 := by
  have h := c4_one_edge_per_unordered_pair
      [sampleCdr "111" [sampleRow "222" "2024-01-01" "10:00" 60 "OUT"],
       sampleCdr "222" [sampleRow "111" "2024-01-02" "11:00" 30 "IN"]]
      "111" "222" (by decide) (by simp only [noHyph]; decide)
      (by simp only [noHyph]; decide) (by simp only [noHyph]; decide)
  refine ⟨?_, ?_⟩
  · rw [h.1]
    decide
  · intro p hp
    rw [h.2.1 p hp]
    decide
